import Mathlib

/-!
Verification development for the `enteliscript` TUI command dispatch and
session-state engine.

The definitions below are a shallow embedding of the Python sources:

* `src/enteliscript/tui/types.py`   — `CommandResult`, `CommandSpec`
* `src/enteliscript/tui/cmd/base.py` — the `command` registration decorator
* `src/enteliscript/tui/cmd/handler.py` — `CommandHandler._build_registry`
* `src/enteliscript/tui/cmd/commands.py` — the command catalog and the
  bodies of `cmd_getlogin` and `cmd_writeproperty`
* `src/enteliscript/tui/widgets.py` — `BlockableInput` (history, busy lock)
* `src/enteliscript/tui/app.py`     — `TUI.on_input_submitted`

Python strings are modelled as Lean `String` (a list of characters);
the string primitives used by the code (`str.strip`, `str.lower`,
`str.upper`, `repr`, `shlex.split`, `int(...)`) are modelled explicitly
for the ASCII character range the program works with.  Python exceptions
are modelled by an explicit `Exn` type and `Except`; the call-time arity
check of a Python function (which raises `TypeError` before the body
runs) is modelled in `callPy`.
-/

deriving instance DecidableEq for Except

/-! ### Python string primitives -/

/-- Whitespace characters stripped by Python `str.strip()` (ASCII range). -/
def isPyWhitespace (c : Char) : Bool :=
  c = ' ' || c = '\t' || c = '\n' || c = '\r' || c = '\x0b' || c = '\x0c'

/-- Model of Python `str.strip()`: remove leading and trailing whitespace. -/
def pyStrip (s : String) : String :=
  ⟨((s.data.dropWhile isPyWhitespace).reverse.dropWhile isPyWhitespace).reverse⟩

/-- Model of Python `str.lower()` (ASCII letters). -/
def pyLower (s : String) : String :=
  ⟨s.data.map Char.toLower⟩

/-- Model of Python `str.upper()` (ASCII letters). -/
def pyUpper (s : String) : String :=
  ⟨s.data.map Char.toUpper⟩

/-- Hexadecimal digit for `repr`'s escapes. -/
def hexDigit (n : Nat) : Char :=
  if n < 10 then Char.ofNat (48 + n) else Char.ofNat (87 + n)

/-- The quote character Python `repr` picks for a string: a single quote
unless the string holds one and no double quote. -/
def pyReprQuote (s : String) : Char :=
  if s.data.contains '\'' ∧ ¬ s.data.contains '"' then '"' else '\''

/-- One character of the body of Python `repr` of a string (ASCII range). -/
def pyReprChar (q c : Char) : String :=
  if c = '\\' then "\\\\"
  else if c = q then ⟨['\\', q]⟩
  else if c = '\n' then "\\n"
  else if c = '\r' then "\\r"
  else if c = '\t' then "\\t"
  else if c.toNat < 32 ∨ c.toNat = 127 then
    ⟨['\\', 'x', hexDigit (c.toNat / 16), hexDigit (c.toNat % 16)]⟩
  else ⟨[c]⟩

/-- Model of Python `repr` on a string (ASCII range), as used by the
`{x!r}` f-string conversions in the sources. -/
def pyReprStr (s : String) : String :=
  let q := pyReprQuote s
  ⟨[q]⟩ ++ String.join (s.data.map (pyReprChar q)) ++ ⟨[q]⟩

/-- Digit run to a number, for the model of Python `int(...)`. -/
def digitsToNat (ds : List Char) : Option Nat :=
  if ds ≠ [] ∧ ds.all Char.isDigit then
    some (ds.foldl (fun a c => a * 10 + (c.toNat - 48)) 0)
  else none

/-- Model of Python `int(str)` for plain base-10 literals: optional
surrounding whitespace, an optional sign, then decimal digits; anything
else raises `ValueError` (modelled as `none`). -/
def pyParseInt (s : String) : Option Int :=
  match (pyStrip s).data with
  | '+' :: ds => (digitsToNat ds).map Int.ofNat
  | '-' :: ds => (digitsToNat ds).map (fun n => -(n : Int))
  | ds => (digitsToNat ds).map Int.ofNat

/-! ### Model of `shlex.split` (POSIX mode, as called in `app.py`)

`TUI.on_input_submitted` tokenizes with `shlex.split(raw)`: POSIX rules,
no comment handling.  The state machine below mirrors CPython's
`shlex.read_token`: whitespace separates tokens, single quotes are fully
literal, double quotes allow `\"` and `\\` escapes (other backslashes are
kept verbatim), a backslash outside quotes escapes any one character, an
unclosed quote raises `ValueError("No closing quotation")` and a trailing
escape raises `ValueError("No escaped character")`. -/

/-- Token-separating whitespace of `shlex` (its `whitespace` attribute). -/
def shlexWs (c : Char) : Bool :=
  c = ' ' || c = '\t' || c = '\r' || c = '\n'

/-- States of the `shlex.read_token` scanner. -/
inductive LexState
  | ws
  | word
  | squote
  | dquote
  | escWord
  | escDquote
deriving DecidableEq, Repr

/-- One pass of the `shlex` scanner over the remaining characters.
`tok` is the current token (reversed), `quoted` records whether the
current token saw a quote (an empty quoted token is still emitted),
`acc` holds the finished tokens (reversed). -/
def shlexRun : List Char → LexState → List Char → Bool → List String →
    Except String (List String)
  | [], st, tok, quoted, acc =>
    match st with
    | .ws => .ok acc.reverse
    | .word =>
      if tok ≠ [] ∨ quoted then .ok ((⟨tok.reverse⟩ : String) :: acc).reverse
      else .ok acc.reverse
    | .squote => .error "No closing quotation"
    | .dquote => .error "No closing quotation"
    | .escWord => .error "No escaped character"
    | .escDquote => .error "No escaped character"
  | c :: cs, st, tok, quoted, acc =>
    match st with
    | .ws =>
      if shlexWs c then shlexRun cs .ws tok quoted acc
      else if c = '\'' then shlexRun cs .squote tok true acc
      else if c = '"' then shlexRun cs .dquote tok true acc
      else if c = '\\' then shlexRun cs .escWord tok quoted acc
      else shlexRun cs .word (c :: tok) quoted acc
    | .word =>
      if shlexWs c then
        if tok ≠ [] ∨ quoted then
          shlexRun cs .ws [] false ((⟨tok.reverse⟩ : String) :: acc)
        else shlexRun cs .ws [] false acc
      else if c = '\'' then shlexRun cs .squote tok true acc
      else if c = '"' then shlexRun cs .dquote tok true acc
      else if c = '\\' then shlexRun cs .escWord tok quoted acc
      else shlexRun cs .word (c :: tok) quoted acc
    | .squote =>
      if c = '\'' then shlexRun cs .word tok quoted acc
      else shlexRun cs .squote (c :: tok) quoted acc
    | .dquote =>
      if c = '"' then shlexRun cs .word tok quoted acc
      else if c = '\\' then shlexRun cs .escDquote tok quoted acc
      else shlexRun cs .dquote (c :: tok) quoted acc
    | .escWord => shlexRun cs .word (c :: tok) quoted acc
    | .escDquote =>
      if c = '"' ∨ c = '\\' then shlexRun cs .dquote (c :: tok) quoted acc
      else shlexRun cs .dquote (c :: '\\' :: tok) quoted acc

/-- Model of `shlex.split(s)` as used in `TUI.on_input_submitted`. -/
def shlexSplit (s : String) : Except String (List String) :=
  shlexRun s.data .ws [] false []

/-! ### `tui/types.py`: the result and spec records -/

/-- Declared parameter types that a `CommandSpec` can carry (the `params`
tuple of the decorator holds Python type constructors; the catalog uses
`str`, and `int` models a converting constructor that can fail). -/
inductive PType
  | pstr
  | pint
deriving DecidableEq, Repr

/-- Outcome record returned by every command handler
(`tui/types.py`, `CommandResult`).  `data` is used by the catalog only to
carry a list of site names. -/
structure CommandResult where
  ok : Bool
  message : String := ""
  action : Option String := none
  data : Option (List String) := none
deriving DecidableEq, Repr

/-- Immutable metadata attached to each registered command
(`tui/types.py`, `CommandSpec`). -/
structure CommandSpec where
  name : String
  usage : String
  summary : String
  aliases : List String := []
  blocking : Bool := false
  blocking_msg : String := "Working..."
  params : List PType := []
deriving DecidableEq, Repr

/-! ### `tui/cmd/base.py`: the `command` registration decorator -/

/-- Python `a or b` on an optional string: the default is used when the
value is `None` or empty (falsy). -/
def pyOrString (o : Option String) (d : String) : String :=
  match o with
  | some s => if s = "" then d else s
  | none => d

/-- The `CommandSpec` built by the `command` decorator (`tui/cmd/base.py`):
`name` and `aliases` are lowercased, `usage` falls back to the normalized
name, `blocking_msg` falls back to `"Working..."` when blocking and `""`
otherwise, `params` falls back to the empty tuple.  The decorator's
Python defaults are `usage=None`, `summary=""`, `aliases=()`,
`blocking=False`, `blocking_msg="Working..."`, `params=None`. -/
def command (name : String) (usage : Option String) (summary : String)
    (aliases : List String) (blocking : Bool) (blocking_msg : Option String)
    (params : Option (List PType)) : CommandSpec :=
  let normalizedName := pyLower name
  let normalizedUsage := pyOrString usage normalizedName
  let normalizedAliases := aliases.map pyLower
  { name := normalizedName
    usage := normalizedUsage
    summary := summary
    aliases := normalizedAliases
    blocking := blocking
    blocking_msg := pyOrString blocking_msg (if blocking then "Working..." else "")
    params := match params with | some l => l | none => [] }

/-! ### `tui/widgets.py`: the `BlockableInput` widget -/

/-- The spinner frames of `BlockableInput._SPINNER_FRAMES`. -/
def spinnerFrames : List String :=
  ["⠋", "⠙", "⠹", "⠸", "⠼", "⠴", "⠦", "⠧", "⠇", "⠏"]

/-- State of a `BlockableInput` widget: the input value, placeholder,
busy lock (the `busy` CSS class), cursor state, history buffer with its
navigation index and draft, and spinner state. -/
structure InputState where
  value : String
  placeholder : String
  defaultPlaceholder : String
  busy : Bool
  cursorBlink : Bool
  cursorVisible : Bool
  cursorPosition : Nat
  history : List String
  historyIndex : Int
  historyDraft : String
  spinnerFrame : Nat
  spinnerLabel : String
  spinnerTimer : Bool
deriving DecidableEq, Repr

/-- A freshly constructed `BlockableInput` (its `__init__`). -/
def mkBlockableInput (placeholder : String) : InputState :=
  { value := ""
    placeholder := placeholder
    defaultPlaceholder := placeholder
    busy := false
    cursorBlink := true
    cursorVisible := true
    cursorPosition := 0
    history := []
    historyIndex := -1
    historyDraft := ""
    spinnerFrame := 0
    spinnerLabel := ""
    spinnerTimer := false }

/-- `BlockableInput.push_history`: ignore empty commands, skip appending
a duplicate of the most recent entry, reset history navigation. -/
def BlockableInput.push_history (st : InputState) (command : String) : InputState :=
  if command = "" then st
  else
    let hist :=
      if st.history = [] ∨ st.history.getLast? ≠ some command then
        st.history ++ [command]
      else st.history
    { st with history := hist, historyIndex := -1, historyDraft := "" }

/-- `BlockableInput.block`: enter the busy state with a spinner label;
clears the value, shows the first spinner frame in the placeholder,
adds the `busy` class and hides the cursor. -/
def BlockableInput.block (st : InputState) (label : String) : InputState :=
  { st with
    spinnerFrame := 0
    spinnerLabel := label
    placeholder := (spinnerFrames.getD 0 "") ++ " " ++ label
    value := ""
    busy := true
    cursorBlink := false
    cursorVisible := false
    spinnerTimer := true }

/-- `BlockableInput._finish_unblock`: the deferred cleanup — clear the
value, restore the default placeholder, drop the `busy` class. -/
def BlockableInput.finish_unblock (st : InputState) : InputState :=
  { st with value := "", placeholder := st.defaultPlaceholder, busy := false }

/-- `BlockableInput.unblock`: stop the spinner, restore the cursor, then
run the deferred `_finish_unblock` cleanup.  (In the source the cleanup
is deferred with `call_after_refresh` so that key events queued during
the blocking window are flushed first; it still runs within the same
dispatch cycle, so the composed state is modelled.) -/
def BlockableInput.unblock (st : InputState) : InputState :=
  BlockableInput.finish_unblock { st with spinnerTimer := false, cursorBlink := true, cursorVisible := true }

/-- The keys handled by `BlockableInput.on_key`; all other keys go to the
base `Input` widget. -/
inductive KeyEvent
  | escape
  | up
  | down
deriving DecidableEq, Repr

/-- `BlockableInput.on_key`: Escape clears the input and the history
navigation state; Up walks toward the oldest history entry (saving the
in-progress draft on entry, clamping at the oldest entry); Down walks
back toward the draft, restoring it when the index returns to -1.
Python's negative indexing `history[-(i+1)]` is `history[len-1-i]`. -/
def BlockableInput.on_key (st : InputState) (k : KeyEvent) : InputState :=
  match k with
  | .escape => { st with value := "", historyIndex := -1, historyDraft := "" }
  | .up =>
    if st.history = [] then st
    else
      let st := if st.historyIndex = -1 then { st with historyDraft := st.value } else st
      let nextIndex := st.historyIndex + 1
      if nextIndex < (st.history.length : Int) then
        let v := st.history.getD (st.history.length - 1 - nextIndex.toNat) ""
        { st with historyIndex := nextIndex, value := v, cursorPosition := v.length }
      else st
  | .down =>
    if st.historyIndex = -1 then st
    else
      let idx := st.historyIndex - 1
      let v :=
        if idx = -1 then st.historyDraft
        else st.history.getD (st.history.length - 1 - idx.toNat) ""
      { st with historyIndex := idx, value := v, cursorPosition := v.length }

/-! ### `tui/app.py`: the dispatch cycle `TUI.on_input_submitted` -/

/-- A coerced argument value: either a raw string token or the result of
an `int` conversion. -/
inductive Arg
  | str (s : String)
  | int (n : Int)
deriving DecidableEq, Repr

/-- A Python exception as the dispatcher can observe it: its class and
message.  `typeError` covers `TypeError` (in the dispatch cycle these
arise from call-time arity mismatches), `valueError` covers `ValueError`
(bad literals, bad quoting), `other kind msg` covers any other class. -/
inductive Exn
  | typeError (msg : String)
  | valueError (msg : String)
  | other (kind : String) (msg : String)
deriving DecidableEq, Repr

/-- The exception's class name, as `type(e).__name__` renders it. -/
def exnKind : Exn → String
  | .typeError _ => "TypeError"
  | .valueError _ => "ValueError"
  | .other kind _ => kind

/-- The exception's message, as `f"{e}"` renders it. -/
def exnMsg : Exn → String
  | .typeError msg => msg
  | .valueError msg => msg
  | .other _ msg => msg

/-- A dispatchable Python callable as the dispatch table holds it: the
method's name, its accepted positional-argument counts, its body, and
the `_command_spec` attribute (read with `getattr(function,
"_command_spec", None)`).  The body may return a result or raise. -/
structure PyCmd where
  implName : String
  minArgs : Nat
  maxArgs : Nat
  body : List Arg → Except Exn CommandResult
  spec : Option CommandSpec

/-- Calling a Python function `function(*args)`: an argument count the
signature does not accept raises `TypeError` before the body runs;
otherwise the body runs. -/
def callPy (f : PyCmd) (args : List Arg) : Except Exn CommandResult :=
  if f.minArgs ≤ args.length ∧ args.length ≤ f.maxArgs then f.body args
  else .error (.typeError (f.implName ++ "() takes an invalid number of positional arguments"))

/-- Applying one declared parameter type to one raw token, `t(v)`:
`str` returns the token, `int` parses it or raises `ValueError`. -/
def pyconv (t : PType) (v : String) : Except Exn Arg :=
  match t with
  | .pstr => .ok (.str v)
  | .pint =>
    match pyParseInt v with
    | some n => .ok (.int n)
    | none => .error (.valueError ("invalid literal for int() with base 10: " ++ pyReprStr v))

/-- The zipped conversions `[t(v) for t, v in zip(spec.params, args)]`:
positional, truncated at the shorter list, failing at the leftmost bad
literal. -/
def convertZip : List PType → List String → Except Exn (List Arg)
  | t :: ts, v :: vs =>
    match pyconv t v with
    | .error e => .error e
    | .ok a =>
      match convertZip ts vs with
      | .error e => .error e
      | .ok rest => .ok (a :: rest)
  | _, _ => .ok []

/-- The full coercion expression of `on_input_submitted`:
`[t(v) for t, v in zip(spec.params, args)] + list(args[len(spec.params):])` —
converted prefix plus the surplus tokens passed through as raw strings. -/
def coerceArgs (params : List PType) (args : List String) : Except Exn (List Arg) :=
  (convertZip params args).map (· ++ (args.drop params.length).map Arg.str)

/-- The coercion step as guarded in the source: it runs only when a spec
is attached and declares a non-empty parameter list (`if spec and
spec.params:`); otherwise the tokens pass through as raw strings. -/
def effectiveCoerce (spec : Option CommandSpec) (args : List String) : Except Exn (List Arg) :=
  match spec with
  | some s => if s.params ≠ [] then coerceArgs s.params args else .ok (args.map Arg.str)
  | none => .ok (args.map Arg.str)

/-- Observable steps of one dispatch cycle: log writes (`self._log`),
the busy lock being taken and released, the implementation call, the log
being cleared, and the site-selector modal being pushed. -/
inductive DispatchEvent
  | logLine (s : String)
  | blocked (label : String)
  | invoked (implName : String) (args : List Arg)
  | unblocked
  | clearedLog
  | siteSelector (sites : Option (List String))
deriving DecidableEq, Repr

/-- The echo of the submitted line, `self._log(f"[cyan]>[/cyan] {raw}")`. -/
def echoEvent (raw : String) : DispatchEvent :=
  .logLine ("[cyan]>[/cyan] " ++ raw)

/-- Result interpretation at the end of the dispatch cycle: a
`clear_log` action clears the log, a `select_site` action logs the
message (unstyled) and pushes the site selector, and otherwise a
non-empty message is logged styled by `ok`. -/
def renderResult (r : CommandResult) : List DispatchEvent :=
  if r.action = some "select_site" then
    (if r.message ≠ "" then [.logLine r.message] else []) ++ [.siteSelector r.data]
  else
    (if r.action = some "clear_log" then [.clearedLog] else []) ++
    (if r.message ≠ "" then
      [.logLine (if r.ok then r.message ++ "\n" else "[red]" ++ r.message ++ "[/red]\n")]
    else [])

/-- The `except` clauses around the invocation: a `TypeError` is logged
as a usage error, any other exception as a command crash with its class
and message; a normal result goes to result interpretation. -/
def invokeOutcomeEvents (o : Except Exn CommandResult) : List DispatchEvent :=
  match o with
  | .ok r => renderResult r
  | .error (.typeError m) => [.logLine ("[red]Usage error:[/red] " ++ m ++ "\n")]
  | .error e =>
    [.logLine ("[red]Command crashed:[/red] " ++ exnKind e ++ ": " ++ exnMsg e ++ "\n")]

/-- The execution step: a blocking command locks the input with the
spec's `blocking_msg`, invokes the implementation off the interactive
thread and releases the lock in a `finally:` — on success, failure or
exception alike; a non-blocking command clears the input and runs in
place.  Exceptions continue to the `except` clauses afterwards. -/
def execCommand (f : PyCmd) (st : InputState) (cargs : List Arg) :
    InputState × List DispatchEvent :=
  match f.spec with
  | some s =>
    if s.blocking then
      (BlockableInput.unblock (BlockableInput.block st s.blocking_msg),
        [.blocked s.blocking_msg, .invoked f.implName cargs, .unblocked] ++
          invokeOutcomeEvents (callPy f cargs))
    else
      ({ st with value := "" },
        [.invoked f.implName cargs] ++ invokeOutcomeEvents (callPy f cargs))
  | none =>
    ({ st with value := "" },
      [.invoked f.implName cargs] ++ invokeOutcomeEvents (callPy f cargs))

/-- Everything one dispatch cycle leaves behind: the input widget's
state, the observable events in order, and an exception escaping the
handler (`none` everywhere the source catches them). -/
structure DispatchOutcome where
  state : InputState
  events : List DispatchEvent
  raised : Option Exn
deriving Repr

/-- The `<command>?` shorthand branch: reuses the registered help
implementation directly.  The call stands outside the dispatch cycle's
`try:`, so an exception from it would escape (the registered help
implementation returns normally on every input). -/
def helpShorthand (dispatch : String → Option PyCmd) (st : InputState)
    (raw p : String) : DispatchOutcome :=
  let target := pyLower ⟨p.data.dropLast⟩
  match dispatch "help" with
  | none => ⟨st, [echoEvent raw, .logLine "[red]Help command not available.[/red]\n"], none⟩
  | some f =>
    match callPy f [.str target] with
    | .error e => ⟨st, [echoEvent raw, .invoked f.implName [.str target]], some e⟩
    | .ok r =>
      ⟨st, [echoEvent raw, .invoked f.implName [.str target]] ++
        (if r.message ≠ "" then
          [.logLine (if r.ok then r.message ++ "\n" else "[red]" ++ r.message ++ "[/red]\n")]
        else []), none⟩

/-- The main dispatch path: lowercase lookup, argument coercion, then
execution with exception handling. -/
def normalDispatch (dispatch : String → Option PyCmd) (st : InputState)
    (raw cmd : String) (args : List String) : DispatchOutcome :=
  match dispatch (pyLower cmd) with
  | none =>
    ⟨st, [echoEvent raw,
      .logLine ("[red]Unknown command:[/red] " ++ pyReprStr cmd ++ " (try 'help')\n")], none⟩
  | some f =>
    match effectiveCoerce f.spec args with
    | .error e =>
      ⟨st, [echoEvent raw, .logLine ("[red]Argument error:[/red] " ++ exnMsg e ++ "\n")], none⟩
    | .ok cargs =>
      let r := execCommand f st cargs
      ⟨r.fst, [echoEvent raw] ++ r.snd, none⟩

/-- Whether a token list takes the `<command>?` help-shorthand branch:
exactly one token that ends in `?` and is longer than one character. -/
def isHelpShorthand (p : String) (rest : List String) : Prop :=
  rest = [] ∧ p.data.getLast? = some '?' ∧ p.length > 1

instance (p : String) (rest : List String) : Decidable (isHelpShorthand p rest) := by
  unfold isHelpShorthand
  infer_instance

/-- One full dispatch cycle of `TUI.on_input_submitted` over the
submitted text: strip (empty input only clears the field), push history,
echo, tokenize (a `ValueError` from `shlex` is logged as a parse error),
resolve the `?` shorthand, then dispatch.  An empty token list would
make the unpacking `cmd, *args = parts` raise an uncaught `ValueError`
(unreachable for stripped non-empty input). -/
def TUI.on_input_submitted (dispatch : String → Option PyCmd) (st : InputState)
    (value : String) : DispatchOutcome :=
  let raw := pyStrip value
  if raw = "" then ⟨{ st with value := "" }, [], none⟩
  else
    let st := BlockableInput.push_history st raw
    match shlexSplit raw with
    | .error e =>
      ⟨st, [echoEvent raw, .logLine ("[red]Parse error:[/red] " ++ e ++ "\n")], none⟩
    | .ok [] =>
      ⟨st, [echoEvent raw],
        some (.valueError "not enough values to unpack (expected at least 1, got 0)")⟩
    | .ok (p :: rest) =>
      if isHelpShorthand p rest then helpShorthand dispatch st raw p
      else normalDispatch dispatch st raw p rest

/-! ### `tui/cmd/commands.py`: the command catalog's specs

Each definition mirrors one `@command(...)` decoration, written as the
positional application `command name usage summary aliases blocking
blocking_msg params` with the decorator's Python defaults filled in for
the keywords the source does not pass. -/

def clearSpec : CommandSpec :=
  command "clear" (some "clear") "Clear the output log." [] false (some "Working...") none

def helpSpec : CommandSpec :=
  command "help" (some "help <command>") "Show command list or details for one command."
    ["h", "?"] false (some "Working...") none

def whereconfigSpec : CommandSpec :=
  command "whereconfig" (some "whereconfig") "Show the directory of the config and log files."
    [] false (some "Working...") none

def loginSpec : CommandSpec :=
  command "login" (some "login") "Authenticate the enteliWEB API." [] true
    (some "Logging in ...") none

def getloginSpec : CommandSpec :=
  command "getlogin" (some "getlogin") "Show the currently saved username." [] false
    (some "Working...") none

def setloginSpec : CommandSpec :=
  command "setlogin" (some "setlogin <username> <password>")
    "Save enteliWEB credentials for this user." [] false (some "Working...")
    (some [.pstr, .pstr])

def setsiteSpec : CommandSpec :=
  command "setsite" (some "setsite") "List available sites and select one." [] true
    (some "Fetching sites ...") none

def getsiteSpec : CommandSpec :=
  command "getsite" (some "getsite") "Show the currently selected site." [] false
    (some "Working...") none

def getdevicesSpec : CommandSpec :=
  command "getdevices" (some "getdevices") "List devices at the current site." [] true
    (some "Fetching devices ...") none

def getobjectsSpec : CommandSpec :=
  command "getobjects" (some "getobjects <device>") "List BACnet objects for a device."
    [] true (some "Fetching objects ...") none

def writepropertySpec : CommandSpec :=
  command "writeproperty" (some "writeproperty <device> <obj> <prop> <value>")
    "Write a value to a property." [] true (some "Writing property ...") none

def writecsvSpec : CommandSpec :=
  command "writecsv" (some "writecsv <csv_path>") "Write BACnet properties from a CSV file."
    [] true (some "Writing properties from CSV ...") none

/-- One command method of the `Commands` mixin as registry construction
sees it: the method name, the positional-argument counts of its
signature (excluding `self`; `cmd_help` has one optional parameter), and
its attached spec. -/
structure MethodInfo where
  implName : String
  minArgs : Nat
  maxArgs : Nat
  spec : CommandSpec
deriving DecidableEq, Repr

/-- The registered methods of `Commands`, in the alphabetical order
`dir(self)` yields them to `_build_registry`. -/
def commandCatalog : List MethodInfo :=
  [⟨"cmd_clear", 0, 0, clearSpec⟩,
   ⟨"cmd_getdevices", 0, 0, getdevicesSpec⟩,
   ⟨"cmd_getlogin", 0, 0, getloginSpec⟩,
   ⟨"cmd_getobjects", 1, 1, getobjectsSpec⟩,
   ⟨"cmd_getsite", 0, 0, getsiteSpec⟩,
   ⟨"cmd_help", 0, 1, helpSpec⟩,
   ⟨"cmd_login", 0, 0, loginSpec⟩,
   ⟨"cmd_setlogin", 2, 2, setloginSpec⟩,
   ⟨"cmd_setsite", 0, 0, setsiteSpec⟩,
   ⟨"cmd_whereconfig", 0, 0, whereconfigSpec⟩,
   ⟨"cmd_writecsv", 1, 1, writecsvSpec⟩,
   ⟨"cmd_writeproperty", 4, 4, writepropertySpec⟩]

/-- A dispatchable callable for a catalog method: identity, signature
and spec from the catalog, body supplied (the observable behaviour of
the implementation). -/
def mkPyCmd (m : MethodInfo) (body : List Arg → Except Exn CommandResult) : PyCmd :=
  ⟨m.implName, m.minArgs, m.maxArgs, body, some m.spec⟩

/-! ### `tui/cmd/handler.py`: `CommandHandler._build_registry` -/

/-- Assignment `d[k] = v` on a Python dict modelled as an association
list: replace the value under an existing key, else append. -/
def dictInsert (d : List (String × α)) (k : String) (v : α) : List (String × α) :=
  if d.any (fun p => p.fst = k) then
    d.map (fun p => if p.fst = k then (k, v) else p)
  else d ++ [(k, v)]

/-- `CommandHandler._build_registry`: for each method with a spec, map
the spec's name and then each alias to `(method, spec)`. -/
def buildRegistry (cat : List MethodInfo) : List (String × (String × CommandSpec)) :=
  cat.foldl
    (fun reg m =>
      let reg := dictInsert reg m.spec.name (m.implName, m.spec)
      m.spec.aliases.foldl (fun r a => dictInsert r a (m.implName, m.spec)) reg)
    []

/-- The registry the running application builds once at startup. -/
def theRegistry : List (String × (String × CommandSpec)) :=
  buildRegistry commandCatalog

/-! ### `tui/cmd/commands.py`: `cmd_getlogin` and `cmd_writeproperty` -/

/-- The password rendering computed inline by `cmd_getlogin`: first two
and last two characters with an asterisk for each remaining character
when the password is longer than four characters, all asterisks
otherwise. -/
def password_display (p : String) : String :=
  if p.length > 4 then
    ⟨p.data.take 2⟩ ++ ⟨List.replicate (p.length - 4) '*'⟩ ++ ⟨p.data.drop (p.length - 2)⟩
  else ⟨List.replicate p.length '*'⟩

/-- `Commands.cmd_getlogin` over the stored credential pair returned by
`get_credentials()`: with either credential unset the result is a
failure; otherwise the username's `repr` and the masked password. -/
def cmd_getlogin (username : Option String) (password : Option String) : CommandResult :=
  match username, password with
  | some u, some p =>
    ⟨true, "Username: " ++ pyReprStr u ++ "  |  Password: " ++ password_display p,
      none, none⟩
  | _, _ => ⟨false, "No credentials stored.", none, none⟩

/-- The anchored match `re.match(r'^([A-Za-z]+)(\d+)$', obj)` of
`cmd_writeproperty`: the whole token must be one or more ASCII letters
followed by one or more digits; the two groups are returned. -/
def matchLettersDigits (s : String) : Option (String × String) :=
  let letters := s.data.takeWhile Char.isAlpha
  let rest := s.data.dropWhile Char.isAlpha
  if letters ≠ [] ∧ rest ≠ [] ∧ rest.all Char.isDigit then
    some (⟨letters⟩, ⟨rest⟩)
  else none

/-- One call to `RemoteService.writeProperty` (the `EnteliwebAPI`
collaborator) with its six arguments. -/
structure WritePropertyCall where
  site : String
  device : String
  objType : String
  inst : String
  prop : String
  value : String
deriving DecidableEq, Repr

/-- `Commands.cmd_writeproperty`: reject a malformed object token, then
reject a missing active site, and only then call
`RemoteService.writeProperty` with the letters portion uppercased and
the digits portion as the instance.  The second component lists the
remote calls the invocation performed. -/
def cmd_writeproperty (sitename : Option String) (writeOk : WritePropertyCall → Bool)
    (device obj prop value : String) : CommandResult × List WritePropertyCall :=
  match matchLettersDigits obj with
  | none =>
    (⟨false, "Invalid object format: " ++ obj ++ ". Expected e.g. 'AV1', 'AO3'.",
      none, none⟩, [])
  | some (letters, digits) =>
    let objType := pyUpper letters
    let inst := digits
    match sitename with
    | none =>
      (⟨false, "No site selected. Run [bold]login[/bold] or [bold]setsite[/bold] first.",
        none, none⟩, [])
    | some site =>
      let call : WritePropertyCall := ⟨site, device, objType, inst, prop, value⟩
      if writeOk call then
        (⟨true, "Successfully wrote value " ++ pyReprStr value ++ " to " ++ device ++
          "/" ++ objType ++ "/" ++ inst ++ "/" ++ prop ++ ".", none, none⟩, [call])
      else
        (⟨false,
          "Failed to write property. Check device/object/instance/property names and try again.",
          none, none⟩, [call])

/-! ### Fixtures used by the concrete witnesses -/

/-- A `BlockableInput` constructed with the application's placeholder
(`TUI.__init__` passes `"Type a command (e.g. help) ..."`). -/
def defaultInput : InputState :=
  mkBlockableInput "Type a command (e.g. help) ..."

/-- Two characters that differ at most in letter case: equal, or both
ASCII letters with the same uppercase form. -/
def charCaseVariant (c₁ c₂ : Char) : Prop :=
  c₁ = c₂ ∨ (c₁.isAlpha ∧ c₂.isAlpha ∧ c₁.toUpper = c₂.toUpper)

instance : DecidableRel charCaseVariant := fun c₁ c₂ =>
  inferInstanceAs (Decidable (c₁ = c₂ ∨ (c₁.isAlpha ∧ c₂.isAlpha ∧ c₁.toUpper = c₂.toUpper)))

/-- Two strings that differ at most in the letter case of their
characters. -/
def strCaseVariant (s₁ s₂ : String) : Prop :=
  List.Forall₂ charCaseVariant s₁.data s₂.data

instance (s₁ s₂ : String) : Decidable (strCaseVariant s₁ s₂) :=
  inferInstanceAs (Decidable (List.Forall₂ charCaseVariant s₁.data s₂.data))

/-- A blocking demonstration spec for the witnesses. -/
def demoBoomSpec : CommandSpec :=
  command "boom" none "" [] true (some "Working on it ...") none

/-- A blocking demonstration command whose implementation raises a
`RuntimeError` mid-call. -/
def demoBoomCmd : PyCmd :=
  ⟨"cmd_boom", 0, 0, fun _ => .error (.other "RuntimeError" "kaboom"), some demoBoomSpec⟩

/-- A dispatch table holding only the raising blocking command. -/
def demoBoomDispatch : String → Option PyCmd :=
  fun t => if t = "boom" then some demoBoomCmd else none

/-- A demonstration spec declaring one `int` parameter. -/
def demoAdd1Spec : CommandSpec :=
  command "add1" none "" [] false (some "Working...") (some [.pint])

/-- A demonstration command for the declared-`int`-parameter spec. -/
def demoAdd1Cmd : PyCmd :=
  ⟨"cmd_add1", 1, 1,
    fun args =>
      match args with
      | [.int n] => .ok ⟨true, toString (n + 1), none, none⟩
      | _ => .ok ⟨false, "", none, none⟩,
    some demoAdd1Spec⟩

/-- A dispatch table holding only the `int`-parameter command. -/
def demoAdd1Dispatch : String → Option PyCmd :=
  fun t => if t = "add1" then some demoAdd1Cmd else none

/-- A behaviour for `cmd_setlogin` used by the under-supplied-arguments
witness (never reached there: the call-time arity check fires first). -/
def demoSetloginBody : List Arg → Except Exn CommandResult :=
  fun args =>
    match args with
    | [.str u, .str _] => .ok ⟨true, "Credentials saved for username " ++ pyReprStr u ++ ".", none, none⟩
    | _ => .ok ⟨false, "Usage: setlogin <username> <password>", none, none⟩

/-- A dispatch table holding the registered `setlogin` method. -/
def demoSetloginDispatch : String → Option PyCmd :=
  fun t =>
    if t = "setlogin" then some (mkPyCmd ⟨"cmd_setlogin", 2, 2, setloginSpec⟩ demoSetloginBody)
    else none

/-- The input state after submitting `a` twice (history `["a"]` after
duplicate collapsing) with an in-progress draft typed into the field. -/
def historyDemoState (draft : String) : InputState :=
  { BlockableInput.push_history (BlockableInput.push_history defaultInput "a") "a" with
    value := draft }

/-- Scanner states from which `shlexRun` is guaranteed to produce at
least one token (or fail): a token was already emitted, or the current
token is non-empty or quoted, or a quote or escape is in progress. -/
def Committed (st : LexState) (tok : List Char) (quoted : Bool) (acc : List String) : Prop :=
  acc ≠ [] ∨
  (st = .word ∧ (tok ≠ [] ∨ quoted = true)) ∨
  ((st = .squote ∨ st = .dquote ∨ st = .escDquote) ∧ quoted = true) ∨
  st = .escWord

/-! ### Supporting lemmas -/

lemma shlexSplit_quoted_sample :
    shlexSplit "setlogin \"a b\" c" = .ok ["setlogin", "a b", "c"] := by decide

lemma shlexSplit_unclosed_sample :
    shlexSplit "a 'b" = .error "No closing quotation" := by decide


lemma string_mk_ne_empty {l : List Char} : (⟨l⟩ : String) ≠ "" ↔ l ≠ [] := by
  constructor
  · intro h hl
    apply h
    rw [hl]
  · intro h hc
    apply h
    simpa using congrArg String.data hc

lemma pyLower_ne_empty {s : String} (h : s ≠ "") : pyLower s ≠ "" := by
  unfold pyLower
  rw [string_mk_ne_empty]
  intro hm
  have hd : s.data = [] := List.map_eq_nil_iff.mp hm
  apply h
  cases s with
  | mk data =>
    simp only [String.data] at hd
    rw [hd]

/-- ASCII letters and digits are disjoint character classes. -/
lemma alpha_not_digit (c : Char) (h : c.isAlpha = true) : c.isDigit = false := by
  simp only [Char.isAlpha, Char.isUpper, Char.isLower, Char.isDigit, Bool.or_eq_true,
    Bool.and_eq_true, decide_eq_true_eq] at h ⊢
  simp only [Bool.and_eq_false_iff, decide_eq_false_iff_not]
  right
  intro hle
  have hx : c.val.toNat ≤ (57 : UInt32).toNat := by
    simpa [UInt32.le_def, BitVec.le_def] using hle
  have h57 : ((57 : UInt32)).toNat = 57 := by decide
  rcases h with ⟨h1, _⟩ | ⟨h1, _⟩
  · have hy : (65 : UInt32).toNat ≤ c.val.toNat := by
      simpa [UInt32.le_def, BitVec.le_def] using h1
    have h65 : ((65 : UInt32)).toNat = 65 := by decide
    omega
  · have hy : (97 : UInt32).toNat ≤ c.val.toNat := by
      simpa [UInt32.le_def, BitVec.le_def] using h1
    have h97 : ((97 : UInt32)).toNat = 97 := by decide
    omega

lemma charCaseVariant_isAlpha {c₁ c₂ : Char} (h : charCaseVariant c₁ c₂) :
    c₁.isAlpha = c₂.isAlpha := by
  rcases h with rfl | ⟨h1, h2, _⟩
  · rfl
  · rw [h1, h2]

lemma charCaseVariant_eq_of_not_alpha {c₁ c₂ : Char} (h : charCaseVariant c₁ c₂)
    (hna : c₁.isAlpha = false) : c₁ = c₂ := by
  rcases h with rfl | ⟨h1, _, _⟩
  · rfl
  · rw [h1] at hna; cases hna

lemma charCaseVariant_toUpper {c₁ c₂ : Char} (h : charCaseVariant c₁ c₂) :
    c₁.toUpper = c₂.toUpper := by
  rcases h with rfl | ⟨_, _, h3⟩
  · rfl
  · exact h3

lemma forall2_ccv_split {l₁ l₂ : List Char} (h : List.Forall₂ charCaseVariant l₁ l₂) :
    (l₁.takeWhile Char.isAlpha).map Char.toUpper =
      (l₂.takeWhile Char.isAlpha).map Char.toUpper ∧
    List.Forall₂ charCaseVariant (l₁.dropWhile Char.isAlpha) (l₂.dropWhile Char.isAlpha) := by
  induction h with
  | nil => exact ⟨rfl, .nil⟩
  | @cons c₁ c₂ t₁ t₂ hcc htail ih =>
    cases ha : c₁.isAlpha with
    | true =>
      have ha₂ : c₂.isAlpha = true := by rw [← charCaseVariant_isAlpha hcc]; exact ha
      refine ⟨?_, ?_⟩
      · simp only [List.takeWhile_cons, ha, ha₂, if_true, List.map_cons]
        rw [charCaseVariant_toUpper hcc, ih.1]
      · simpa only [List.dropWhile_cons, ha, ha₂, if_true] using ih.2
    | false =>
      have hc : c₁ = c₂ := charCaseVariant_eq_of_not_alpha hcc ha
      subst hc
      refine ⟨?_, ?_⟩
      · simp [List.takeWhile_cons, ha]
      · simp only [List.dropWhile_cons, ha]
        simpa using List.Forall₂.cons hcc htail

lemma forall2_ccv_all_digits_eq {l₁ l₂ : List Char}
    (h : List.Forall₂ charCaseVariant l₁ l₂) (hd : l₁.all Char.isDigit = true) :
    l₁ = l₂ := by
  induction h with
  | nil => rfl
  | @cons c₁ c₂ t₁ t₂ hcc htail ih =>
    simp only [List.all_cons, Bool.and_eq_true] at hd
    have hna : c₁.isAlpha = false := by
      cases halpha : c₁.isAlpha
      · rfl
      · rw [alpha_not_digit c₁ halpha] at hd
        cases hd.1
    rw [charCaseVariant_eq_of_not_alpha hcc hna, ih hd.2]

lemma matchLettersDigits_caseVariant {o₁ o₂ : String} (h : strCaseVariant o₁ o₂)
    {lt dg : String} (hm : matchLettersDigits o₁ = some (lt, dg)) :
    ∃ lt₂, matchLettersDigits o₂ = some (lt₂, dg) ∧ pyUpper lt = pyUpper lt₂ := by
  obtain ⟨hmap, hdrop⟩ := forall2_ccv_split h
  simp only [matchLettersDigits] at hm
  split_ifs at hm with hc
  obtain ⟨hc₁, hc₂, hc₃⟩ := hc
  injection hm with hm'
  injection hm' with hlt hdg
  have hde : o₁.data.dropWhile Char.isAlpha = o₂.data.dropWhile Char.isAlpha :=
    forall2_ccv_all_digits_eq hdrop hc₃
  have htw₂ : o₂.data.takeWhile Char.isAlpha ≠ [] := by
    intro hnil
    apply hc₁
    have := congrArg List.length hmap
    simp only [hnil, List.map_nil, List.length_map, List.length_nil] at this
    exact List.eq_nil_of_length_eq_zero this
  refine ⟨⟨o₂.data.takeWhile Char.isAlpha⟩, ?_, ?_⟩
  · unfold matchLettersDigits
    rw [if_pos ⟨htw₂, by rw [← hde]; exact hc₂, by rw [← hde]; exact hc₃⟩]
    rw [← hde, ← hdg]
  · rw [← hlt]
    unfold pyUpper
    exact congrArg String.mk hmap

/-! ### Claim theorems -/

/-- C5: `cmd_writeproperty` rejects a malformed object token (no
`<letters><digits>` shape) with an `ok=false` result whose message names
the offending token and performs no remote call; with a well-formed
token but no active site it returns `ok=false` with no remote call; and
only when the token is well-formed and a site is active does it invoke
`RemoteService.writeProperty` (exactly once). -/
theorem writeproperty_guards_before_remote_call
    (site : Option String) (writeOk : WritePropertyCall → Bool)
    (device obj prop value : String) :
    (matchLettersDigits obj = none →
      (cmd_writeproperty site writeOk device obj prop value).fst.ok = false ∧
      (cmd_writeproperty site writeOk device obj prop value).fst.message =
        "Invalid object format: " ++ obj ++ ". Expected e.g. 'AV1', 'AO3'." ∧
      (cmd_writeproperty site writeOk device obj prop value).snd = []) ∧
    (matchLettersDigits obj ≠ none → site = none →
      (cmd_writeproperty site writeOk device obj prop value).fst.ok = false ∧
      (cmd_writeproperty site writeOk device obj prop value).snd = []) ∧
    (∀ letters digits s, matchLettersDigits obj = some (letters, digits) → site = some s →
      (cmd_writeproperty site writeOk device obj prop value).snd =
        [⟨s, device, pyUpper letters, digits, prop, value⟩]) := by
  refine ⟨?_, ?_, ?_⟩
  · intro hm
    simp [cmd_writeproperty, hm]
  · intro hm hs
    subst hs
    cases hmo : matchLettersDigits obj with
    | none => exact absurd hmo hm
    | some p =>
      cases p with
      | mk letters digits => simp [cmd_writeproperty, hmo]
  · intro letters digits s hm hs
    subst hs
    cases hw : writeOk ⟨s, device, pyUpper letters, digits, prop, value⟩ <;>
      simp [cmd_writeproperty, hm, hw]

/-- Witness for C5 at the spec's concrete examples: `BADOBJ` is
malformed and produces a failure naming it without a remote call, and a
well-formed `AV1` with no active site fails without a remote call. -/
theorem writeproperty_guards_before_remote_call_witness :
    (matchLettersDigits "BADOBJ" = none) ∧
    ((cmd_writeproperty none (fun _ => true) "dev1" "BADOBJ" "prop" "val").fst.ok = false ∧
      (cmd_writeproperty none (fun _ => true) "dev1" "BADOBJ" "prop" "val").fst.message =
        "Invalid object format: " ++ "BADOBJ" ++ ". Expected e.g. 'AV1', 'AO3'." ∧
      (cmd_writeproperty none (fun _ => true) "dev1" "BADOBJ" "prop" "val").snd = []) ∧
    (matchLettersDigits "AV1" ≠ none) ∧
    ((cmd_writeproperty none (fun _ => true) "dev1" "AV1" "present-value" "72.5").fst.ok = false ∧
      (cmd_writeproperty none (fun _ => true) "dev1" "AV1" "present-value" "72.5").snd = []) :=
  ⟨by decide,
    (writeproperty_guards_before_remote_call none (fun _ => true) "dev1" "BADOBJ" "prop"
      "val").1 (by decide),
    by decide,
    (writeproperty_guards_before_remote_call none (fun _ => true) "dev1" "AV1" "present-value"
      "72.5").2.1 (by decide) rfl⟩

lemma password_display_data_long {p : String} (h : p.length > 4) :
    (password_display p).data =
      p.data.take 2 ++ List.replicate (p.length - 4) '*' ++ p.data.drop (p.length - 2) := by
  simp [password_display, if_pos h]

lemma password_display_pointwise_long {p : String} (h : p.length > 4) :
    (password_display p).length = p.length ∧
    ∀ i : Nat, i < p.length →
      ((i < 2 ∨ p.length - 2 ≤ i) → (password_display p).data[i]? = p.data[i]?) ∧
      (2 ≤ i → i < p.length - 2 → (password_display p).data[i]? = some '*') := by
  have hd := password_display_data_long h
  have hlen2 : (p.data.take 2).length = 2 := by
    simp [List.length_take]
    omega
  have hlenr : (List.replicate (p.length - 4) '*').length = p.length - 4 := by simp
  constructor
  · show (password_display p).data.length = p.length
    rw [hd]
    simp [List.length_append, hlen2, hlenr]
    omega
  · intro i hi
    constructor
    · rintro (hlt | hge)
      · rw [hd, List.getElem?_append_left, List.getElem?_append_left,
          List.getElem?_take_of_lt hlt]
        · omega
        · simp [List.length_append, hlen2, hlenr]
          omega
      · rw [hd, List.getElem?_append_right, List.getElem?_drop]
        · congr 1
          simp [List.length_append, hlen2, hlenr]
          omega
        · simp [List.length_append, hlen2, hlenr]
          omega
    · intro h2 hmid
      rw [hd, List.getElem?_append_left, List.getElem?_append_right,
        List.getElem?_replicate_of_lt]
      · rw [hlen2]; omega
      · rw [hlen2]; omega
      · simp [List.length_append, hlen2, hlenr]
        omega

lemma password_display_pointwise_short {p : String} (h : p.length ≤ 4) :
    (password_display p).length = p.length ∧
    ∀ i : Nat, i < p.length → (password_display p).data[i]? = some '*' := by
  have hd : (password_display p).data = List.replicate p.length '*' := by
    have hng : ¬ p.length > 4 := by omega
    simp [password_display, if_neg hng]
  constructor
  · show (password_display p).data.length = p.length
    rw [hd]
    simp
  · intro i hi
    rw [hd, List.getElem?_replicate_of_lt hi]

/-- C6: `cmd_getlogin` renders a stored password longer than four
characters as its first two characters, `length - 4` asterisks, then its
last two characters (so `"hunter2"` renders as `hu***r2`); a password of
length at most four is rendered entirely as asterisks; and with either
credential unset the result is the `ok=false` "No credentials stored."
failure.  The final two conjuncts state the mask character by character:
the rendering has the password's length, agrees with the password on the
first two and last two positions, and is an asterisk everywhere in
between (for short passwords, everywhere). -/
theorem getlogin_password_masking :
    (∀ u p : String, p.length > 4 →
      cmd_getlogin (some u) (some p) =
        ⟨true, "Username: " ++ pyReprStr u ++ "  |  Password: " ++
          ((⟨p.data.take 2⟩ : String) ++ (⟨List.replicate (p.length - 4) '*'⟩ : String) ++
            (⟨p.data.drop (p.length - 2)⟩ : String)), none, none⟩) ∧
    (∀ u p : String, p.length ≤ 4 →
      cmd_getlogin (some u) (some p) =
        ⟨true, "Username: " ++ pyReprStr u ++ "  |  Password: " ++
          (⟨List.replicate p.length '*'⟩ : String), none, none⟩) ∧
    (∀ u : String, cmd_getlogin (some u) (some "hunter2") =
      ⟨true, "Username: " ++ pyReprStr u ++ "  |  Password: hu***r2", none, none⟩) ∧
    (∀ p : Option String, cmd_getlogin none p =
      ⟨false, "No credentials stored.", none, none⟩) ∧
    (∀ u : String, cmd_getlogin (some u) none =
      ⟨false, "No credentials stored.", none, none⟩) ∧
    (∀ p : String, p.length > 4 →
      (password_display p).length = p.length ∧
      ∀ i : Nat, i < p.length →
        ((i < 2 ∨ p.length - 2 ≤ i) → (password_display p).data[i]? = p.data[i]?) ∧
        (2 ≤ i → i < p.length - 2 → (password_display p).data[i]? = some '*')) ∧
    (∀ p : String, p.length ≤ 4 →
      (password_display p).length = p.length ∧
      ∀ i : Nat, i < p.length → (password_display p).data[i]? = some '*') := by
  refine ⟨?_, ?_, ?_, ?_, ?_, ?_, ?_⟩
  · intro u p hp
    simp [cmd_getlogin, password_display, if_pos hp]
  · intro u p hp
    have hnp : ¬ p.length > 4 := by omega
    simp [cmd_getlogin, password_display, if_neg hnp]
  · intro u
    have hd : password_display "hunter2" = "hu***r2" := by decide
    simp only [cmd_getlogin, hd, CommandResult.mk.injEq]
    refine ⟨trivial, ?_, trivial, trivial⟩
    rw [String.append_assoc]
    congr 1
  · intro p
    cases p <;> rfl
  · intro u
    rfl
  · intro p hp
    exact password_display_pointwise_long hp
  · intro p hp
    exact password_display_pointwise_short hp

/-- Witness for C6 at the spec's concrete example: stored credentials
`("admin", "hunter2")` render the masked password `hu***r2`, and a fully
masked form appears for the four-character password `"abcd"`. -/
theorem getlogin_password_masking_witness :
    (("hunter2" : String).length > 4) ∧
    (cmd_getlogin (some "admin") (some "hunter2") =
      ⟨true, "Username: " ++ pyReprStr "admin" ++ "  |  Password: hu***r2", none, none⟩) ∧
    (("abcd" : String).length ≤ 4) ∧
    (cmd_getlogin (some "admin") (some "abcd") =
      ⟨true, "Username: " ++ pyReprStr "admin" ++ "  |  Password: " ++
        (⟨List.replicate ("abcd" : String).length '*'⟩ : String), none, none⟩) :=
  ⟨by decide,
    getlogin_password_masking.2.2.1 "admin",
    by decide,
    getlogin_password_masking.2.1 "admin" "abcd" (by decide)⟩

/-- C7: pushing an input-history entry equal to the most recent entry
leaves the history buffer unchanged; submitting `a`, then `a`, then `b`
yields history `["a", "b"]`; and in the duplicate-collapsed state after
submitting `a` twice (history `["a"]`), pressing Up twice from an
in-progress draft yields `a` and then `a` again (clamped at the oldest
entry), after which pressing Down restores the draft text. -/
theorem history_dedup_and_navigation :
    (∀ (st : InputState) (cmd : String), cmd ≠ "" → st.history.getLast? = some cmd →
      (BlockableInput.push_history st cmd).history = st.history) ∧
    ((BlockableInput.push_history (BlockableInput.push_history
      (BlockableInput.push_history defaultInput "a") "a") "b").history = ["a", "b"]) ∧
    (∀ draft : String,
      (BlockableInput.on_key (historyDemoState draft) .up).value = "a" ∧
      (BlockableInput.on_key (BlockableInput.on_key (historyDemoState draft) .up) .up).value
        = "a" ∧
      (BlockableInput.on_key (BlockableInput.on_key (BlockableInput.on_key
        (historyDemoState draft) .up) .up) .down).value = draft) := by
  refine ⟨?_, ?_, ?_⟩
  · intro st cmd h1 h2
    have hne : ¬ (st.history = [] ∨ st.history.getLast? ≠ some cmd) := by
      rintro (h | h)
      · rw [h] at h2
        simp at h2
      · exact h h2
    simp [BlockableInput.push_history, if_neg h1, if_neg hne]
  · rfl
  · intro draft
    refine ⟨rfl, rfl, rfl⟩

/-- Witness for C7 at a concrete draft: with history `["a"]` and the
draft `"getsi"`, Up yields `a`, Up again yields `a`, Down restores
`"getsi"`; and pushing `"a"` onto a history ending in `"a"` leaves the
buffer unchanged. -/
theorem history_dedup_and_navigation_witness :
    (("a" : String) ≠ "") ∧
    ((historyDemoState "getsi").history.getLast? = some "a") ∧
    ((BlockableInput.push_history (historyDemoState "getsi") "a").history =
      (historyDemoState "getsi").history) ∧
    ((BlockableInput.on_key (historyDemoState "getsi") .up).value = "a" ∧
      (BlockableInput.on_key (BlockableInput.on_key (historyDemoState "getsi") .up) .up).value
        = "a" ∧
      (BlockableInput.on_key (BlockableInput.on_key (BlockableInput.on_key
        (historyDemoState "getsi") .up) .up) .down).value = "getsi") :=
  ⟨by decide, by decide,
    history_dedup_and_navigation.1 (historyDemoState "getsi") "a" (by decide) (by decide),
    history_dedup_and_navigation.2.2 "getsi"⟩

/-- C8 (counterexample): as stated the claim is false — the `command`
decorator performs no non-emptiness check, so registering with the empty
name stores an empty (not non-empty) `name` on the produced
`CommandSpec`. -/
theorem command_nonempty_name_refuted :
    ¬ (∀ (name : String) (usage : Option String) (summary : String)
        (aliases : List String) (blocking : Bool) (bmsg : Option String)
        (params : Option (List PType)),
        (command name usage summary aliases blocking bmsg params).name ≠ "") :=
  fun h => h "" none "" [] false (some "Working...") none (by decide)

/-- C8 (amended): for every `CommandSpec` produced by the registration
decorator, with any inputs, the stored name is the lowercased input name
(hence non-empty whenever the supplied name is non-empty), every stored
alias is the lowercased input alias, the usage string defaults to the
bare (normalized) name when not supplied, and whenever `blocking` is
true the stored `blocking_msg` is a non-empty string. -/
theorem command_normalization_amended :
    ∀ (name : String) (usage : Option String) (summary : String)
      (aliases : List String) (blocking : Bool) (bmsg : Option String)
      (params : Option (List PType)),
      (command name usage summary aliases blocking bmsg params).name = pyLower name ∧
      (name ≠ "" → (command name usage summary aliases blocking bmsg params).name ≠ "") ∧
      (command name usage summary aliases blocking bmsg params).aliases =
        aliases.map pyLower ∧
      (usage = none →
        (command name usage summary aliases blocking bmsg params).usage =
          (command name usage summary aliases blocking bmsg params).name) ∧
      (blocking = true →
        (command name usage summary aliases blocking bmsg params).blocking_msg ≠ "") := by
  intro name usage summary aliases blocking bmsg params
  refine ⟨rfl, ?_, rfl, ?_, ?_⟩
  · intro h
    exact pyLower_ne_empty h
  · intro h
    subst h
    rfl
  · intro hb
    subst hb
    cases bmsg with
    | none => simp [command, pyOrString]
    | some s =>
      by_cases hs : s = ""
      · subst hs
        simp [command, pyOrString]
      · simp [command, pyOrString, hs]

/-- Witness for C8's amended statement at concrete inputs: the
registration `command "Login" none "" ["L"] true none none` stores the
lowercase name `login` (non-empty), the lowercase alias `l`, the usage
defaulted to the name, and a non-empty `blocking_msg`. -/
theorem command_normalization_amended_witness :
    ((command "Login" none "" ["L"] true none none).name = pyLower "Login" ∧
      (("Login" : String) ≠ "" →
        (command "Login" none "" ["L"] true none none).name ≠ "") ∧
      (command "Login" none "" ["L"] true none none).aliases = ["L"].map pyLower ∧
      ((none : Option String) = none →
        (command "Login" none "" ["L"] true none none).usage =
          (command "Login" none "" ["L"] true none none).name) ∧
      (true = true → (command "Login" none "" ["L"] true none none).blocking_msg ≠ "")) ∧
    (command "Login" none "" ["L"] true none none).name = "login" :=
  ⟨command_normalization_amended "Login" none "" ["L"] true none none, by decide⟩

/-- C10: for a well-formed object token and an active site, the
`objectType` argument `cmd_writeproperty` passes to
`RemoteService.writeProperty` is the letters portion of the token
uppercased; consequently two invocations whose object tokens differ only
in letter case perform the identical remote call and return the
identical result. -/
theorem writeproperty_object_case_insensitive :
    (∀ (svc : WritePropertyCall → Bool) (device obj prop value letters digits s : String),
      matchLettersDigits obj = some (letters, digits) →
      (cmd_writeproperty (some s) svc device obj prop value).snd =
        [⟨s, device, pyUpper letters, digits, prop, value⟩]) ∧
    (∀ (s : String) (svc : WritePropertyCall → Bool) (device obj₁ obj₂ prop value : String),
      strCaseVariant obj₁ obj₂ →
      (∃ lt dg, matchLettersDigits obj₁ = some (lt, dg)) →
      cmd_writeproperty (some s) svc device obj₁ prop value =
        cmd_writeproperty (some s) svc device obj₂ prop value) := by
  constructor
  · intro svc device obj prop value letters digits s hm
    cases hw : svc ⟨s, device, pyUpper letters, digits, prop, value⟩ <;>
      simp [cmd_writeproperty, hm, hw]
  · intro s svc device obj₁ obj₂ prop value hcv hex
    obtain ⟨lt, dg, hm₁⟩ := hex
    obtain ⟨lt₂, hm₂, hup⟩ := matchLettersDigits_caseVariant hcv hm₁
    simp only [cmd_writeproperty, hm₁, hm₂]
    rw [hup]

/-- Witness for C10 at the concrete tokens `av1` and `AV1`: both match
the letters-digits shape, they differ only in letter case, and with a
site set they produce the identical call list and identical result. -/
theorem writeproperty_object_case_insensitive_witness :
    (matchLettersDigits "av1" = some ("av", "1")) ∧
    (strCaseVariant "av1" "AV1") ∧
    ((cmd_writeproperty (some "siteA") (fun _ => true) "dev1" "av1" "present-value"
        "72.5").snd = [⟨"siteA", "dev1", pyUpper "av", "1", "present-value", "72.5"⟩]) ∧
    (cmd_writeproperty (some "siteA") (fun _ => true) "dev1" "av1" "present-value" "72.5" =
      cmd_writeproperty (some "siteA") (fun _ => true) "dev1" "AV1" "present-value" "72.5") :=
  ⟨by decide, by decide,
    writeproperty_object_case_insensitive.1 (fun _ => true) "dev1" "av1" "present-value"
      "72.5" "av" "1" "siteA" (by decide),
    writeproperty_object_case_insensitive.2 "siteA" (fun _ => true) "dev1" "av1" "AV1"
      "present-value" "72.5" (by decide) ⟨"av", "1", by decide⟩⟩

/-- C4: in the registry built from the full command catalog the tokens
are pairwise distinct (each maps to exactly one implementation), every
canonical name and every declared alias is present, and looking any of
a command's tokens up yields the identical `(implementation, spec)`
entry that its canonical name yields. -/
theorem registry_tokens_unique_and_alias_lookup_consistent :
    ((theRegistry.map Prod.fst).Nodup) ∧
    (∀ m, m ∈ commandCatalog →
      theRegistry.lookup m.spec.name = some (m.implName, m.spec) ∧
      ∀ a, a ∈ m.spec.aliases → theRegistry.lookup a = some (m.implName, m.spec)) := by
  decide

/-- Witness for C4 at the one aliased command: looking up `help` and its
aliases `h` and `?` all yield the identical registry entry. -/
theorem registry_alias_lookup_witness :
    ((⟨"cmd_help", 0, 1, helpSpec⟩ : MethodInfo) ∈ commandCatalog) ∧
    theRegistry.lookup "help" = some ("cmd_help", helpSpec) ∧
    theRegistry.lookup "h" = some ("cmd_help", helpSpec) ∧
    theRegistry.lookup "?" = some ("cmd_help", helpSpec) :=
  have hmem : (⟨"cmd_help", 0, 1, helpSpec⟩ : MethodInfo) ∈ commandCatalog := by decide
  have h := registry_tokens_unique_and_alias_lookup_consistent.2 ⟨"cmd_help", 0, 1, helpSpec⟩ hmem
  ⟨hmem, h.1, h.2 "h" (by decide), h.2 "?" (by decide)⟩

lemma convertZip_ok_length {ps : List PType} {vs : List String} {as : List Arg}
    (h : convertZip ps vs = .ok as) : as.length = min ps.length vs.length := by
  induction ps generalizing vs as with
  | nil =>
    simp only [convertZip] at h
    injection h with h
    simp [← h]
  | cons t ts ih =>
    cases vs with
    | nil =>
      simp only [convertZip] at h
      injection h with h
      simp [← h]
    | cons v vs =>
      simp only [convertZip] at h
      cases hc : pyconv t v with
      | error e => rw [hc] at h; cases h
      | ok a =>
        rw [hc] at h
        cases hz : convertZip ts vs with
        | error e => rw [hz] at h; cases h
        | ok rest =>
          rw [hz] at h
          injection h with h
          subst h
          simp only [List.length_cons, ih hz]
          omega

lemma convertZip_ok_get {ps : List PType} {vs : List String} {as : List Arg}
    (h : convertZip ps vs = .ok as) :
    ∀ (i : Nat) (t : PType) (v : String), ps[i]? = some t → vs[i]? = some v →
      ∃ a, pyconv t v = .ok a ∧ as[i]? = some a := by
  induction ps generalizing vs as with
  | nil => intro i t v ht; simp at ht
  | cons t₀ ts ih =>
    cases vs with
    | nil => intro i t v _ hv; simp at hv
    | cons v₀ vs =>
      simp only [convertZip] at h
      cases hc : pyconv t₀ v₀ with
      | error e => rw [hc] at h; cases h
      | ok a =>
        rw [hc] at h
        cases hz : convertZip ts vs with
        | error e => rw [hz] at h; cases h
        | ok rest =>
          rw [hz] at h
          injection h with h
          subst h
          intro i t v ht hv
          cases i with
          | zero =>
            simp only [List.getElem?_cons_zero, Option.some.injEq] at ht hv
            subst ht; subst hv
            exact ⟨a, hc, by simp⟩
          | succ n =>
            simp only [List.getElem?_cons_succ] at ht hv
            simpa using ih hz n t v ht hv

lemma convertZip_error_of_fail {ps : List PType} {vs : List String} {i : Nat}
    {t : PType} {v : String}
    (ht : ps[i]? = some t) (hv : vs[i]? = some v)
    (hf : ∀ a, pyconv t v ≠ .ok a) :
    ∃ e, convertZip ps vs = .error e := by
  induction i generalizing ps vs with
  | zero =>
    cases ps with
    | nil => simp at ht
    | cons t₀ ts =>
      cases vs with
      | nil => simp at hv
      | cons v₀ vs =>
        simp only [List.getElem?_cons_zero, Option.some.injEq] at ht hv
        subst ht; subst hv
        cases hc : pyconv t₀ v₀ with
        | error e => exact ⟨e, by simp [convertZip, hc]⟩
        | ok a => exact absurd hc (hf a)
  | succ n ih =>
    cases ps with
    | nil => simp at ht
    | cons t₀ ts =>
      cases vs with
      | nil => simp at hv
      | cons v₀ vs =>
        simp only [List.getElem?_cons_succ] at ht hv
        obtain ⟨e, he⟩ := ih ht hv
        cases hc : pyconv t₀ v₀ with
        | error e₀ => exact ⟨e₀, by simp [convertZip, hc]⟩
        | ok a => exact ⟨e, by simp [convertZip, hc, he]⟩

lemma coerceArgs_ok_elim {ps : List PType} {vs : List String} {as : List Arg}
    (h : coerceArgs ps vs = .ok as) :
    ∃ zs, convertZip ps vs = .ok zs ∧ as = zs ++ (vs.drop ps.length).map Arg.str := by
  unfold coerceArgs at h
  cases hz : convertZip ps vs with
  | error e => rw [hz] at h; cases h
  | ok zs =>
    rw [hz] at h
    injection h with h
    exact ⟨zs, rfl, h.symm⟩

lemma coerceArgs_error_elim {ps : List PType} {vs : List String} {e : Exn}
    (h : coerceArgs ps vs = .error e) : convertZip ps vs = .error e := by
  unfold coerceArgs at h
  cases hz : convertZip ps vs with
  | error e₀ =>
    rw [hz] at h
    injection h with h
    rw [h]
  | ok zs => rw [hz] at h; cases h

lemma on_input_submitted_normal {dispatch : String → Option PyCmd} {st : InputState}
    {value cmd : String} {args : List String}
    (hraw : pyStrip value ≠ "")
    (htok : shlexSplit (pyStrip value) = .ok (cmd :: args))
    (hsh : ¬ isHelpShorthand cmd args) :
    TUI.on_input_submitted dispatch st value =
      normalDispatch dispatch (BlockableInput.push_history st (pyStrip value))
        (pyStrip value) cmd args := by
  simp only [TUI.on_input_submitted]
  rw [if_neg hraw]
  simp only [htok]
  rw [if_neg hsh]

lemma normalDispatch_found_ok {dispatch : String → Option PyCmd} {st : InputState}
    {raw cmd : String} {args : List String} {f : PyCmd} {cargs : List Arg}
    (hlook : dispatch (pyLower cmd) = some f)
    (hco : effectiveCoerce f.spec args = .ok cargs) :
    normalDispatch dispatch st raw cmd args =
      ⟨(execCommand f st cargs).fst, [echoEvent raw] ++ (execCommand f st cargs).snd,
        none⟩ := by
  simp only [normalDispatch]
  simp only [hlook, hco]

lemma normalDispatch_found_err {dispatch : String → Option PyCmd} {st : InputState}
    {raw cmd : String} {args : List String} {f : PyCmd} {e : Exn}
    (hlook : dispatch (pyLower cmd) = some f)
    (hco : effectiveCoerce f.spec args = .error e) :
    normalDispatch dispatch st raw cmd args =
      ⟨st, [echoEvent raw, .logLine ("[red]Argument error:[/red] " ++ exnMsg e ++ "\n")],
        none⟩ := by
  simp only [normalDispatch]
  simp only [hlook, hco]

lemma execCommand_blocking {f : PyCmd} {st : InputState} {cargs : List Arg}
    {s : CommandSpec} (hspec : f.spec = some s) (hb : s.blocking = true) :
    execCommand f st cargs =
      (BlockableInput.unblock (BlockableInput.block st s.blocking_msg),
        [.blocked s.blocking_msg, .invoked f.implName cargs, .unblocked] ++
          invokeOutcomeEvents (callPy f cargs)) := by
  simp only [execCommand]
  rw [hspec]
  simp only [hb, if_true]

lemma execCommand_snd_shape (f : PyCmd) (st : InputState) (cargs : List Arg) :
    ∃ pre mid, (execCommand f st cargs).snd =
      pre ++ [.invoked f.implName cargs] ++ mid ++ invokeOutcomeEvents (callPy f cargs) := by
  simp only [execCommand]
  cases hfs : f.spec with
  | none => exact ⟨[], [], rfl⟩
  | some s =>
    cases hb : s.blocking with
    | false => exact ⟨[], [], by simp [hb]⟩
    | true => exact ⟨[.blocked s.blocking_msg], [.unblocked], by simp [hb]⟩

lemma shlexRun_committed_ne_nil :
    ∀ (cs : List Char) (st : LexState) (tok : List Char) (quoted : Bool)
      (acc : List String) (parts : List String),
      Committed st tok quoted acc →
      shlexRun cs st tok quoted acc = .ok parts → parts ≠ [] := by
  intro cs
  induction cs with
  | nil =>
    intro st tok quoted acc parts hP hrun
    cases st with
    | ws =>
      have hacc : acc ≠ [] := by
        rcases hP with hacc | ⟨hst, _⟩ | ⟨hst, _⟩ | hst
        · exact hacc
        · simp at hst
        · rcases hst with h | h | h <;> simp at h
        · simp at hst
      simp only [shlexRun] at hrun
      injection hrun with hrun
      subst hrun
      simpa using hacc
    | word =>
      simp only [shlexRun] at hrun
      split_ifs at hrun with hcond
      · injection hrun with hrun
        subst hrun
        simp
      · have hacc : acc ≠ [] := by
          rcases hP with hacc | ⟨_, htq⟩ | ⟨hst, _⟩ | hst
          · exact hacc
          · exact absurd htq hcond
          · rcases hst with h | h | h <;> simp at h
          · simp at hst
        injection hrun with hrun
        subst hrun
        simpa using hacc
    | squote => simp only [shlexRun] at hrun; cases hrun
    | dquote => simp only [shlexRun] at hrun; cases hrun
    | escWord => simp only [shlexRun] at hrun; cases hrun
    | escDquote => simp only [shlexRun] at hrun; cases hrun
  | cons c cs ih =>
    intro st tok quoted acc parts hP hrun
    cases st with
    | ws =>
      have hacc : acc ≠ [] := by
        rcases hP with hacc | ⟨hst, _⟩ | ⟨hst, _⟩ | hst
        · exact hacc
        · simp at hst
        · rcases hst with h | h | h <;> simp at h
        · simp at hst
      simp only [shlexRun] at hrun
      split_ifs at hrun with h1 h2 h3 h4
      · exact ih .ws tok quoted acc parts (Or.inl hacc) hrun
      · exact ih .squote tok true acc parts
          (Or.inr (Or.inr (Or.inl ⟨Or.inl rfl, rfl⟩))) hrun
      · exact ih .dquote tok true acc parts
          (Or.inr (Or.inr (Or.inl ⟨Or.inr (Or.inl rfl), rfl⟩))) hrun
      · exact ih .escWord tok quoted acc parts (Or.inr (Or.inr (Or.inr rfl))) hrun
      · exact ih .word (c :: tok) quoted acc parts
          (Or.inr (Or.inl ⟨rfl, Or.inl (by simp)⟩)) hrun
    | word =>
      simp only [shlexRun] at hrun
      split_ifs at hrun with h1 h2 h3 h4 h5
      · exact ih .ws [] false _ parts (Or.inl (by simp)) hrun
      · have hacc : acc ≠ [] := by
          rcases hP with hacc | ⟨_, htq⟩ | ⟨hst, _⟩ | hst
          · exact hacc
          · exact absurd htq h2
          · rcases hst with h | h | h <;> simp at h
          · simp at hst
        exact ih .ws [] false acc parts (Or.inl hacc) hrun
      · exact ih .squote tok true acc parts
          (Or.inr (Or.inr (Or.inl ⟨Or.inl rfl, rfl⟩))) hrun
      · exact ih .dquote tok true acc parts
          (Or.inr (Or.inr (Or.inl ⟨Or.inr (Or.inl rfl), rfl⟩))) hrun
      · exact ih .escWord tok quoted acc parts (Or.inr (Or.inr (Or.inr rfl))) hrun
      · exact ih .word (c :: tok) quoted acc parts
          (Or.inr (Or.inl ⟨rfl, Or.inl (by simp)⟩)) hrun
    | squote =>
      simp only [shlexRun] at hrun
      rcases hP with hacc | ⟨hst, _⟩ | ⟨_, hq⟩ | hst
      · split_ifs at hrun
        · exact ih .word tok quoted acc parts (Or.inl hacc) hrun
        · exact ih .squote (c :: tok) quoted acc parts (Or.inl hacc) hrun
      · simp at hst
      · split_ifs at hrun
        · exact ih .word tok quoted acc parts (Or.inr (Or.inl ⟨rfl, Or.inr hq⟩)) hrun
        · exact ih .squote (c :: tok) quoted acc parts
            (Or.inr (Or.inr (Or.inl ⟨Or.inl rfl, hq⟩))) hrun
      · simp at hst
    | dquote =>
      simp only [shlexRun] at hrun
      rcases hP with hacc | ⟨hst, _⟩ | ⟨_, hq⟩ | hst
      · split_ifs at hrun
        · exact ih .word tok quoted acc parts (Or.inl hacc) hrun
        · exact ih .escDquote tok quoted acc parts (Or.inl hacc) hrun
        · exact ih .dquote (c :: tok) quoted acc parts (Or.inl hacc) hrun
      · simp at hst
      · split_ifs at hrun
        · exact ih .word tok quoted acc parts (Or.inr (Or.inl ⟨rfl, Or.inr hq⟩)) hrun
        · exact ih .escDquote tok quoted acc parts
            (Or.inr (Or.inr (Or.inl ⟨Or.inr (Or.inr rfl), hq⟩))) hrun
        · exact ih .dquote (c :: tok) quoted acc parts
            (Or.inr (Or.inr (Or.inl ⟨Or.inr (Or.inl rfl), hq⟩))) hrun
      · simp at hst
    | escWord =>
      simp only [shlexRun] at hrun
      exact ih .word (c :: tok) quoted acc parts
        (Or.inr (Or.inl ⟨rfl, Or.inl (by simp)⟩)) hrun
    | escDquote =>
      simp only [shlexRun] at hrun
      rcases hP with hacc | ⟨hst, _⟩ | ⟨_, hq⟩ | hst
      · split_ifs at hrun
        · exact ih .dquote (c :: tok) quoted acc parts (Or.inl hacc) hrun
        · exact ih .dquote (c :: '\\' :: tok) quoted acc parts (Or.inl hacc) hrun
      · simp at hst
      · split_ifs at hrun
        · exact ih .dquote (c :: tok) quoted acc parts
            (Or.inr (Or.inr (Or.inl ⟨Or.inr (Or.inl rfl), hq⟩))) hrun
        · exact ih .dquote (c :: '\\' :: tok) quoted acc parts
            (Or.inr (Or.inr (Or.inl ⟨Or.inr (Or.inl rfl), hq⟩))) hrun
      · simp at hst

lemma shlexRun_start_ne_nil {c₀ : Char} {cs : List Char} {parts : List String}
    (hw : shlexWs c₀ = false)
    (hrun : shlexRun (c₀ :: cs) .ws [] false [] = .ok parts) : parts ≠ [] := by
  simp only [shlexRun] at hrun
  rw [if_neg (by simp [hw])] at hrun
  split_ifs at hrun with h1 h2 h3
  · exact shlexRun_committed_ne_nil cs .squote [] true [] parts
      (Or.inr (Or.inr (Or.inl ⟨Or.inl rfl, rfl⟩))) hrun
  · exact shlexRun_committed_ne_nil cs .dquote [] true [] parts
      (Or.inr (Or.inr (Or.inl ⟨Or.inr (Or.inl rfl), rfl⟩))) hrun
  · exact shlexRun_committed_ne_nil cs .escWord [] false [] parts
      (Or.inr (Or.inr (Or.inr rfl))) hrun
  · exact shlexRun_committed_ne_nil cs .word [c₀] false [] parts
      (Or.inr (Or.inl ⟨rfl, Or.inl (by simp)⟩)) hrun

lemma shlexWs_of_pyWhitespace {c : Char} (h : isPyWhitespace c = false) :
    shlexWs c = false := by
  simp only [isPyWhitespace, Bool.or_eq_false_iff, decide_eq_false_iff_not] at h
  simp only [shlexWs, Bool.or_eq_false_iff, decide_eq_false_iff_not]
  exact ⟨⟨⟨h.1.1.1.1.1, h.1.1.1.1.2⟩, h.1.1.2⟩, h.1.1.1.2⟩

lemma pyStrip_head_not_ws {v : String} (h : pyStrip v ≠ "") :
    ∃ c₀ cs, (pyStrip v).data = c₀ :: cs ∧ isPyWhitespace c₀ = false := by
  have hdne : ((v.data.dropWhile isPyWhitespace).reverse.dropWhile
      isPyWhitespace).reverse ≠ [] := by
    have h' := h
    unfold pyStrip at h'
    exact string_mk_ne_empty.mp h'
  have hpref : ((v.data.dropWhile isPyWhitespace).reverse.dropWhile
      isPyWhitespace).reverse <+: v.data.dropWhile isPyWhitespace := by
    have hsuf : (v.data.dropWhile isPyWhitespace).reverse.dropWhile isPyWhitespace <:+
        (v.data.dropWhile isPyWhitespace).reverse := List.dropWhile_suffix isPyWhitespace
    have := List.reverse_prefix.mpr hsuf
    simpa using this
  obtain ⟨t, ht⟩ := hpref
  cases hd : ((v.data.dropWhile isPyWhitespace).reverse.dropWhile
      isPyWhitespace).reverse with
  | nil => exact absurd hd hdne
  | cons c₀ cs =>
    refine ⟨c₀, cs, hd, ?_⟩
    rw [hd] at ht
    have hmeq : v.data.dropWhile isPyWhitespace = c₀ :: (cs ++ t) := by
      rw [← ht]
      simp
    have hm' : v.data.dropWhile isPyWhitespace ≠ [] := by
      rw [hmeq]
      simp
    have hfin := List.head_dropWhile_not isPyWhitespace v.data hm'
    simp only [hmeq, List.head_cons] at hfin
    exact hfin

lemma shlexSplit_stripped_ne_nil {v : String} {parts : List String}
    (h : pyStrip v ≠ "") (hs : shlexSplit (pyStrip v) = .ok parts) : parts ≠ [] := by
  obtain ⟨c₀, cs, hd, hw⟩ := pyStrip_head_not_ws h
  have hw' := shlexWs_of_pyWhitespace hw
  unfold shlexSplit at hs
  rw [hd] at hs
  exact shlexRun_start_ne_nil hw' hs

lemma on_input_submitted_empty {dispatch : String → Option PyCmd} {st : InputState}
    {value : String} (hv : pyStrip value = "") :
    TUI.on_input_submitted dispatch st value = ⟨{ st with value := "" }, [], none⟩ := by
  simp only [TUI.on_input_submitted]
  rw [if_pos hv]

lemma on_input_submitted_parse_error {dispatch : String → Option PyCmd}
    {st : InputState} {value e : String}
    (hraw : pyStrip value ≠ "") (he : shlexSplit (pyStrip value) = .error e) :
    TUI.on_input_submitted dispatch st value =
      ⟨BlockableInput.push_history st (pyStrip value),
        [echoEvent (pyStrip value),
          .logLine ("[red]Parse error:[/red] " ++ e ++ "\n")], none⟩ := by
  simp only [TUI.on_input_submitted]
  rw [if_neg hraw]
  simp only [he]

lemma normalDispatch_unknown {dispatch : String → Option PyCmd} {st : InputState}
    {raw cmd : String} {args : List String}
    (hlook : dispatch (pyLower cmd) = none) :
    normalDispatch dispatch st raw cmd args =
      ⟨st, [echoEvent raw,
        .logLine ("[red]Unknown command:[/red] " ++ pyReprStr cmd ++ " (try 'help')\n")],
        none⟩ := by
  simp only [normalDispatch]
  simp only [hlook]

/-- C1: a dispatch cycle that reaches the execution of a blocking
command (lookup succeeded, spec blocking, coercion succeeded) locks the
input surface with the spec's `blocking_msg` before invoking the
implementation and releases the lock afterwards on every exit path —
the event sequence is exactly lock, invoke, unlock, then the rendering
of whatever outcome the implementation produced (result, failure or
exception), and the final input state is not busy.  `block` sets the
busy lock and `unblock` clears it. -/
theorem blocking_dispatch_locks_and_always_unlocks
    (dispatch : String → Option PyCmd) (st : InputState) (value : String)
    (cmd : String) (args : List String) (f : PyCmd) (s : CommandSpec) (cargs : List Arg)
    (hraw : pyStrip value ≠ "")
    (htok : shlexSplit (pyStrip value) = .ok (cmd :: args))
    (hsh : ¬ isHelpShorthand cmd args)
    (hlook : dispatch (pyLower cmd) = some f)
    (hspec : f.spec = some s)
    (hblocking : s.blocking = true)
    (hco : effectiveCoerce f.spec args = .ok cargs) :
    (TUI.on_input_submitted dispatch st value).events =
      [echoEvent (pyStrip value), .blocked s.blocking_msg, .invoked f.implName cargs,
        .unblocked] ++ invokeOutcomeEvents (callPy f cargs) ∧
    (TUI.on_input_submitted dispatch st value).state =
      BlockableInput.unblock (BlockableInput.block
        (BlockableInput.push_history st (pyStrip value)) s.blocking_msg) ∧
    (TUI.on_input_submitted dispatch st value).state.busy = false ∧
    (TUI.on_input_submitted dispatch st value).raised = none ∧
    (∀ (σ : InputState) (lbl : String), (BlockableInput.block σ lbl).busy = true) ∧
    (∀ σ : InputState, (BlockableInput.unblock σ).busy = false) := by
  rw [on_input_submitted_normal hraw htok hsh, normalDispatch_found_ok hlook hco,
    execCommand_blocking hspec hblocking]
  refine ⟨by simp, rfl, rfl, rfl, fun σ lbl => rfl, fun σ => rfl⟩

/-- Witness for C1: submitting `boom` (with surrounding whitespace) for
a blocking command whose implementation raises mid-call still produces
the lock/invoke/unlock sequence, a rendered crash message, and an
unlocked final input state. -/
theorem blocking_dispatch_locks_and_always_unlocks_witness :
    (pyStrip "  boom " ≠ "") ∧
    (shlexSplit (pyStrip "  boom ") = .ok ["boom"]) ∧
    (¬ isHelpShorthand "boom" []) ∧
    (demoBoomDispatch (pyLower "boom") = some demoBoomCmd) ∧
    (demoBoomCmd.spec = some demoBoomSpec) ∧
    (demoBoomSpec.blocking = true) ∧
    (effectiveCoerce demoBoomCmd.spec [] = .ok []) ∧
    ((TUI.on_input_submitted demoBoomDispatch defaultInput "  boom ").events =
      [echoEvent (pyStrip "  boom "), .blocked demoBoomSpec.blocking_msg,
        .invoked demoBoomCmd.implName [], .unblocked] ++
        invokeOutcomeEvents (callPy demoBoomCmd []) ∧
      (TUI.on_input_submitted demoBoomDispatch defaultInput "  boom ").state =
        BlockableInput.unblock (BlockableInput.block
          (BlockableInput.push_history defaultInput (pyStrip "  boom "))
          demoBoomSpec.blocking_msg) ∧
      (TUI.on_input_submitted demoBoomDispatch defaultInput "  boom ").state.busy = false ∧
      (TUI.on_input_submitted demoBoomDispatch defaultInput "  boom ").raised = none ∧
      (∀ (σ : InputState) (lbl : String), (BlockableInput.block σ lbl).busy = true) ∧
      (∀ σ : InputState, (BlockableInput.unblock σ).busy = false)) :=
  ⟨by decide, by decide, by decide, rfl, rfl, by decide, rfl,
    blocking_dispatch_locks_and_always_unlocks demoBoomDispatch defaultInput "  boom "
      "boom" [] demoBoomCmd demoBoomSpec [] (by decide) (by decide) (by decide) rfl rfl
      (by decide) rfl⟩

/-- C2: a dispatch cycle that reaches the invocation of a looked-up
command never lets an implementation exception escape (the cycle's
`raised` component is `none` for every implementation outcome), a
`TypeError` — the invalid-argument-shape (wrong-arity) exception class —
is rendered as a usage-error result, and an exception of any other class
is rendered as a "Command crashed" result carrying the exception's kind
and message.  The remaining conjuncts cover every other path of the
cycle: an empty submission, a tokenization failure, an unknown command
and a coercion failure all leave `raised = none` as well, and for a
stripped non-empty line a successful tokenization always yields at
least one token, so the `cmd, *args = parts` unpacking cannot raise. -/
theorem dispatch_catches_implementation_exceptions
    (dispatch : String → Option PyCmd) (st : InputState) (value : String)
    (cmd : String) (args : List String) (f : PyCmd) (cargs : List Arg)
    (hraw : pyStrip value ≠ "")
    (htok : shlexSplit (pyStrip value) = .ok (cmd :: args))
    (hsh : ¬ isHelpShorthand cmd args)
    (hlook : dispatch (pyLower cmd) = some f)
    (hco : effectiveCoerce f.spec args = .ok cargs) :
    (TUI.on_input_submitted dispatch st value).raised = none ∧
    (∀ m, callPy f cargs = .error (.typeError m) →
      ∃ pre, (TUI.on_input_submitted dispatch st value).events =
        pre ++ [.logLine ("[red]Usage error:[/red] " ++ m ++ "\n")]) ∧
    (∀ e, callPy f cargs = .error e → (∀ m, e ≠ .typeError m) →
      ∃ pre, (TUI.on_input_submitted dispatch st value).events =
        pre ++ [.logLine ("[red]Command crashed:[/red] " ++ exnKind e ++ ": " ++
          exnMsg e ++ "\n")]) ∧
    (∀ (σ : InputState) (v : String), pyStrip v = "" →
      (TUI.on_input_submitted dispatch σ v).raised = none) ∧
    (∀ (σ : InputState) (v e' : String), pyStrip v ≠ "" →
      shlexSplit (pyStrip v) = .error e' →
      (TUI.on_input_submitted dispatch σ v).raised = none) ∧
    (∀ (σ : InputState) (v c : String) (as : List String), pyStrip v ≠ "" →
      shlexSplit (pyStrip v) = .ok (c :: as) → ¬ isHelpShorthand c as →
      dispatch (pyLower c) = none →
      (TUI.on_input_submitted dispatch σ v).raised = none) ∧
    (∀ (σ : InputState) (v c : String) (as : List String) (g : PyCmd) (e : Exn),
      pyStrip v ≠ "" → shlexSplit (pyStrip v) = .ok (c :: as) →
      ¬ isHelpShorthand c as → dispatch (pyLower c) = some g →
      effectiveCoerce g.spec as = .error e →
      (TUI.on_input_submitted dispatch σ v).raised = none) ∧
    (∀ (v : String) (parts : List String), pyStrip v ≠ "" →
      shlexSplit (pyStrip v) = .ok parts → parts ≠ []) := by
  rw [on_input_submitted_normal hraw htok hsh, normalDispatch_found_ok hlook hco]
  obtain ⟨pre, mid, hshape⟩ :=
    execCommand_snd_shape f (BlockableInput.push_history st (pyStrip value)) cargs
  refine ⟨rfl, ?_, ?_, ?_, ?_, ?_, ?_, ?_⟩
  · intro m hout
    refine ⟨[echoEvent (pyStrip value)] ++ pre ++ [.invoked f.implName cargs] ++ mid, ?_⟩
    simp only [hshape, hout, invokeOutcomeEvents]
    simp
  · intro e hout hnt
    have hiv : invokeOutcomeEvents (.error e) =
        [.logLine ("[red]Command crashed:[/red] " ++ exnKind e ++ ": " ++ exnMsg e ++ "\n")] := by
      cases e with
      | typeError m => exact absurd rfl (hnt m)
      | valueError m => rfl
      | other kind m => rfl
    refine ⟨[echoEvent (pyStrip value)] ++ pre ++ [.invoked f.implName cargs] ++ mid, ?_⟩
    simp only [hshape, hout, hiv]
    simp
  · intro σ v hv
    rw [on_input_submitted_empty hv]
  · intro σ v e' h1 h2
    rw [on_input_submitted_parse_error h1 h2]
  · intro σ v c as h1 h2 h3 h4
    rw [on_input_submitted_normal h1 h2 h3, normalDispatch_unknown h4]
  · intro σ v c as g e h1 h2 h3 h4 h5
    rw [on_input_submitted_normal h1 h2 h3, normalDispatch_found_err h4 h5]
  · intro v parts h1 h2
    exact shlexSplit_stripped_ne_nil h1 h2

/-- Witness for C2: the raising blocking command `boom` (a
`RuntimeError`) yields no escaping exception and a rendered
`Command crashed: RuntimeError: kaboom` line. -/
theorem dispatch_catches_implementation_exceptions_witness :
    (pyStrip "boom" ≠ "") ∧
    (shlexSplit (pyStrip "boom") = .ok ["boom"]) ∧
    (¬ isHelpShorthand "boom" []) ∧
    (demoBoomDispatch (pyLower "boom") = some demoBoomCmd) ∧
    (effectiveCoerce demoBoomCmd.spec [] = .ok []) ∧
    (callPy demoBoomCmd [] = .error (.other "RuntimeError" "kaboom")) ∧
    ((TUI.on_input_submitted demoBoomDispatch defaultInput "boom").raised = none) ∧
    (∃ pre, (TUI.on_input_submitted demoBoomDispatch defaultInput "boom").events =
      pre ++ [.logLine ("[red]Command crashed:[/red] " ++ exnKind (.other "RuntimeError" "kaboom")
        ++ ": " ++ exnMsg (.other "RuntimeError" "kaboom") ++ "\n")]) :=
  have h := dispatch_catches_implementation_exceptions demoBoomDispatch defaultInput "boom"
    "boom" [] demoBoomCmd [] (by decide) (by decide) (by decide) rfl rfl
  ⟨by decide, by decide, by decide, rfl, rfl, rfl, h.1,
    h.2.2.1 (.other "RuntimeError" "kaboom") rfl (fun m hm => by cases hm)⟩

/-- C3: for a looked-up command with a declared (non-empty) parameter
type list, the raw tokens are coerced positionally — when coercion
succeeds the coerced list has one entry per token, each token covered by
a declared type is the result of invoking that type's constructor on it,
tokens beyond the declared count pass through as raw strings, and the
implementation is invoked on the coerced list; when any conversion
raises an invalid-literal error, coercion as a whole fails, the cycle
renders exactly an argument-error result and the implementation is
never invoked. -/
theorem argument_coercion_positional
    (dispatch : String → Option PyCmd) (st : InputState) (value : String)
    (cmd : String) (args : List String) (f : PyCmd) (s : CommandSpec)
    (hraw : pyStrip value ≠ "")
    (htok : shlexSplit (pyStrip value) = .ok (cmd :: args))
    (hsh : ¬ isHelpShorthand cmd args)
    (hlook : dispatch (pyLower cmd) = some f)
    (hspec : f.spec = some s)
    (hparams : s.params ≠ []) :
    (∀ cargs, coerceArgs s.params args = .ok cargs →
      cargs.length = args.length ∧
      (∀ (i : Nat) (t : PType) (v : String), s.params[i]? = some t → args[i]? = some v →
        ∃ a, pyconv t v = .ok a ∧ cargs[i]? = some a) ∧
      (∀ (i : Nat) (v : String), s.params.length ≤ i → args[i]? = some v →
        cargs[i]? = some (.str v)) ∧
      (∃ pre post, (TUI.on_input_submitted dispatch st value).events =
        pre ++ [.invoked f.implName cargs] ++ post)) ∧
    (∀ e, coerceArgs s.params args = .error e →
      (TUI.on_input_submitted dispatch st value).events =
        [echoEvent (pyStrip value),
          .logLine ("[red]Argument error:[/red] " ++ exnMsg e ++ "\n")] ∧
      (∀ (nm : String) (cargs : List Arg),
        DispatchEvent.invoked nm cargs ∉ (TUI.on_input_submitted dispatch st value).events)) ∧
    ((∃ (i : Nat) (t : PType) (v : String), s.params[i]? = some t ∧ args[i]? = some v ∧
        ∀ a, pyconv t v ≠ .ok a) →
      ∃ e, coerceArgs s.params args = .error e) := by
  have heff : effectiveCoerce f.spec args = coerceArgs s.params args := by
    rw [hspec]
    simp only [effectiveCoerce]
    rw [if_pos hparams]
  rw [on_input_submitted_normal hraw htok hsh]
  refine ⟨?_, ?_, ?_⟩
  · intro cargs hok
    obtain ⟨zs, hz, hdecomp⟩ := coerceArgs_ok_elim hok
    have hzlen := convertZip_ok_length hz
    refine ⟨?_, ?_, ?_, ?_⟩
    · subst hdecomp
      simp only [List.length_append, List.length_map, hzlen, List.length_drop]
      omega
    · intro i t v ht hv
      obtain ⟨a, ha, hai⟩ := convertZip_ok_get hz i t v ht hv
      refine ⟨a, ha, ?_⟩
      subst hdecomp
      have hilt : i < zs.length := by
        rw [hzlen]
        have h₁ : i < s.params.length := by
          by_contra hcon
          rw [List.getElem?_eq_none (by omega)] at ht
          cases ht
        have h₂ : i < args.length := by
          by_contra hcon
          rw [List.getElem?_eq_none (by omega)] at hv
          cases hv
        omega
      rw [List.getElem?_append_left hilt]
      exact hai
    · intro i v hge hv
      subst hdecomp
      have hlt : i < args.length := by
        by_contra hcon
        rw [List.getElem?_eq_none (by omega)] at hv
        cases hv
      have hzl : zs.length = s.params.length := by
        rw [hzlen]; omega
      rw [List.getElem?_append_right (by omega)]
      rw [List.getElem?_map]
      rw [hzl]
      rw [List.getElem?_drop]
      have : s.params.length + (i - s.params.length) = i := by omega
      rw [this, hv]
      rfl
    · rw [normalDispatch_found_ok hlook (by rw [heff]; exact hok)]
      obtain ⟨pre, mid, hshape⟩ :=
        execCommand_snd_shape f (BlockableInput.push_history st (pyStrip value)) cargs
      refine ⟨[echoEvent (pyStrip value)] ++ pre,
        mid ++ invokeOutcomeEvents (callPy f cargs), ?_⟩
      simp only [hshape]
      simp
  · intro e herr
    rw [normalDispatch_found_err hlook (by rw [heff]; exact herr)]
    refine ⟨rfl, ?_⟩
    intro nm cargs hmem
    simp only [echoEvent, List.mem_cons, List.mem_singleton] at hmem
    rcases hmem with h | h | h
    · cases h
    · cases h
    · cases h
  · intro ⟨i, t, v, ht, hv, hf⟩
    obtain ⟨e, he⟩ := convertZip_error_of_fail ht hv hf
    refine ⟨e, ?_⟩
    unfold coerceArgs
    rw [he]
    rfl

/-- Witness for C3: submitting `add1 abc` to a command that declares an
`int` parameter fails the literal conversion, renders exactly an
argument-error line, and never invokes the implementation. -/
theorem argument_coercion_positional_witness :
    (pyStrip "add1 abc" ≠ "") ∧
    (shlexSplit (pyStrip "add1 abc") = .ok ["add1", "abc"]) ∧
    (¬ isHelpShorthand "add1" ["abc"]) ∧
    (demoAdd1Dispatch (pyLower "add1") = some demoAdd1Cmd) ∧
    (demoAdd1Cmd.spec = some demoAdd1Spec) ∧
    (demoAdd1Spec.params ≠ []) ∧
    (coerceArgs demoAdd1Spec.params ["abc"] =
      .error (.valueError ("invalid literal for int() with base 10: " ++ pyReprStr "abc"))) ∧
    ((TUI.on_input_submitted demoAdd1Dispatch defaultInput "add1 abc").events =
      [echoEvent (pyStrip "add1 abc"),
        .logLine ("[red]Argument error:[/red] " ++
          exnMsg (.valueError ("invalid literal for int() with base 10: " ++ pyReprStr "abc"))
          ++ "\n")]) ∧
    (∀ (nm : String) (cargs : List Arg), DispatchEvent.invoked nm cargs ∉
      (TUI.on_input_submitted demoAdd1Dispatch defaultInput "add1 abc").events) :=
  have h := argument_coercion_positional demoAdd1Dispatch defaultInput "add1 abc"
    "add1" ["abc"] demoAdd1Cmd demoAdd1Spec (by decide) (by decide) (by decide) rfl rfl
    (by decide)
  have herr := h.2.1
    (.valueError ("invalid literal for int() with base 10: " ++ pyReprStr "abc")) (by decide)
  ⟨by decide, by decide, by decide, rfl, rfl, by decide, by decide, herr.1, herr.2⟩

lemma execCommand_nonblocking {f : PyCmd} {st : InputState} {cargs : List Arg}
    {s : CommandSpec} (hspec : f.spec = some s) (hb : s.blocking = false) :
    execCommand f st cargs =
      ({ st with value := "" },
        [.invoked f.implName cargs] ++ invokeOutcomeEvents (callPy f cargs)) := by
  simp only [execCommand]
  rw [hspec]
  simp [hb]


/-- C9: for every catalog command that declares parameter types (only
`setlogin`, with two `str` parameters), submitting fewer raw tokens than
declared parameters does not produce an argument error — the zipped type
list is truncated to the tokens available and coercion succeeds with one
coerced argument per token — the implementation is then invoked with
that smaller argument count, the call raises the wrong-arity
`TypeError`, and the cycle renders it as a usage-error result. -/
theorem missing_arguments_truncate_then_usage_error
    (m : MethodInfo) (body : List Arg → Except Exn CommandResult)
    (dispatch : String → Option PyCmd) (st : InputState) (value : String)
    (cmd : String) (args : List String)
    (hm : m ∈ commandCatalog)
    (hparams : m.spec.params ≠ [])
    (hraw : pyStrip value ≠ "")
    (htok : shlexSplit (pyStrip value) = .ok (cmd :: args))
    (hsh : ¬ isHelpShorthand cmd args)
    (hlook : dispatch (pyLower cmd) = some (mkPyCmd m body))
    (hlen : args.length < m.spec.params.length) :
    ∃ cargs em,
      effectiveCoerce (mkPyCmd m body).spec args = .ok cargs ∧
      cargs.length = args.length ∧
      callPy (mkPyCmd m body) cargs = .error (.typeError em) ∧
      (∃ pre post, (TUI.on_input_submitted dispatch st value).events =
        pre ++ [.invoked m.implName cargs] ++ post) ∧
      (∃ pre, (TUI.on_input_submitted dispatch st value).events =
        pre ++ [.logLine ("[red]Usage error:[/red] " ++ em ++ "\n")]) := by
  simp only [commandCatalog] at hm
  fin_cases hm <;> try exact absurd (by decide) hparams
  have hlen2 : args.length < 2 := by
    have hp : setloginSpec.params.length = 2 := by decide
    simpa [hp] using hlen
  have hblock : setloginSpec.blocking = false := by decide
  rcases args with _ | ⟨a, _ | ⟨b, rest⟩⟩
  · have hco : effectiveCoerce
        (mkPyCmd ⟨"cmd_setlogin", 2, 2, setloginSpec⟩ body).spec [] = .ok [] := rfl
    have hcall : callPy (mkPyCmd ⟨"cmd_setlogin", 2, 2, setloginSpec⟩ body) [] =
        .error (.typeError "cmd_setlogin() takes an invalid number of positional arguments") :=
      rfl
    refine ⟨[], "cmd_setlogin() takes an invalid number of positional arguments",
      hco, rfl, hcall, ?_, ?_⟩
    · rw [on_input_submitted_normal hraw htok hsh,
        normalDispatch_found_ok hlook hco, execCommand_nonblocking rfl hblock]
      exact ⟨[echoEvent (pyStrip value)],
        invokeOutcomeEvents (callPy (mkPyCmd ⟨"cmd_setlogin", 2, 2, setloginSpec⟩ body) []),
        by simp [mkPyCmd]⟩
    · rw [on_input_submitted_normal hraw htok hsh,
        normalDispatch_found_ok hlook hco, execCommand_nonblocking rfl hblock]
      refine ⟨[echoEvent (pyStrip value), .invoked "cmd_setlogin" []], ?_⟩
      rw [hcall]
      simp [invokeOutcomeEvents, mkPyCmd]
  · have hco : effectiveCoerce
        (mkPyCmd ⟨"cmd_setlogin", 2, 2, setloginSpec⟩ body).spec [a] = .ok [.str a] := rfl
    have hcall : callPy (mkPyCmd ⟨"cmd_setlogin", 2, 2, setloginSpec⟩ body) [.str a] =
        .error (.typeError "cmd_setlogin() takes an invalid number of positional arguments") :=
      rfl
    refine ⟨[.str a], "cmd_setlogin() takes an invalid number of positional arguments",
      hco, rfl, hcall, ?_, ?_⟩
    · rw [on_input_submitted_normal hraw htok hsh,
        normalDispatch_found_ok hlook hco, execCommand_nonblocking rfl hblock]
      exact ⟨[echoEvent (pyStrip value)],
        invokeOutcomeEvents
          (callPy (mkPyCmd ⟨"cmd_setlogin", 2, 2, setloginSpec⟩ body) [.str a]),
        by simp [mkPyCmd]⟩
    · rw [on_input_submitted_normal hraw htok hsh,
        normalDispatch_found_ok hlook hco, execCommand_nonblocking rfl hblock]
      refine ⟨[echoEvent (pyStrip value), .invoked "cmd_setlogin" [.str a]], ?_⟩
      rw [hcall]
      simp [invokeOutcomeEvents, mkPyCmd]
  · exfalso
    simp at hlen2
    omega

/-- Witness for C9: submitting `setlogin bob` (one token for two
declared parameters) coerces without an argument error, invokes the
implementation with one argument, and renders a usage-error line. -/
theorem missing_arguments_truncate_then_usage_error_witness :
    ((⟨"cmd_setlogin", 2, 2, setloginSpec⟩ : MethodInfo) ∈ commandCatalog) ∧
    (setloginSpec.params ≠ []) ∧
    (pyStrip "setlogin bob" ≠ "") ∧
    (shlexSplit (pyStrip "setlogin bob") = .ok ["setlogin", "bob"]) ∧
    (¬ isHelpShorthand "setlogin" ["bob"]) ∧
    (demoSetloginDispatch (pyLower "setlogin") =
      some (mkPyCmd ⟨"cmd_setlogin", 2, 2, setloginSpec⟩ demoSetloginBody)) ∧
    ((["bob"] : List String).length <
      (⟨"cmd_setlogin", 2, 2, setloginSpec⟩ : MethodInfo).spec.params.length) ∧
    (∃ cargs em,
      effectiveCoerce (mkPyCmd ⟨"cmd_setlogin", 2, 2, setloginSpec⟩ demoSetloginBody).spec
        ["bob"] = .ok cargs ∧
      cargs.length = (["bob"] : List String).length ∧
      callPy (mkPyCmd ⟨"cmd_setlogin", 2, 2, setloginSpec⟩ demoSetloginBody) cargs =
        .error (.typeError em) ∧
      (∃ pre post,
        (TUI.on_input_submitted demoSetloginDispatch defaultInput "setlogin bob").events =
          pre ++ [.invoked "cmd_setlogin" cargs] ++ post) ∧
      (∃ pre,
        (TUI.on_input_submitted demoSetloginDispatch defaultInput "setlogin bob").events =
          pre ++ [.logLine ("[red]Usage error:[/red] " ++ em ++ "\n")])) :=
  ⟨by decide, by decide, by decide, by decide, by decide, rfl, by decide,
    missing_arguments_truncate_then_usage_error ⟨"cmd_setlogin", 2, 2, setloginSpec⟩
      demoSetloginBody demoSetloginDispatch defaultInput "setlogin bob" "setlogin" ["bob"]
      (by decide) (by decide) (by decide) (by decide) (by decide) rfl (by decide)⟩
